import Mathlib

/-!
Verification development for the content-transformation core of the
`tufancalisir.de` repository: JSON-LD structured-data constructors and their
serialization (`src/utils/jsonld.ts`), the build-mode version resolver
(`src/utils/env.ts`), the RSS feed endpoint (`src/pages/rss.xml.js`), the
heading-anchor extraction over rich-text documents (documented pattern
`headlineAnchorIds`), and the image derivation engine
(`src/utils/optimizeImage.ts`, modelled from the specification since the
file itself is not part of the provided sources).

Each TypeScript/JavaScript function is embedded as an executable Lean
definition; JavaScript string truthiness (`undefined` and `""` are falsy)
is modelled explicitly.
-/

namespace Tufan

/-! ## JavaScript helpers -/

/-- Truthiness of an optional JS string: `undefined` and the empty string are
falsy, every other string is truthy. -/
def jsTruthy : Option String → Bool
  | none => false
  | some s => !s.isEmpty

/-- The value a conditional JS assignment `if (x) target = x` leaves in an
optional field: the supplied string when it is truthy, otherwise unset. -/
def keepTruthy : Option String → Option String
  | none => none
  | some s => if s.isEmpty then none else some s

/-- The value `if (x && x.length > 0) target = x` leaves in an optional
list-valued field. -/
def keepNonemptyList : Option (List String) → Option (List String)
  | none => none
  | some l => if l.length > 0 then some l else none

/-! ## Data model of `src/utils/jsonld.ts`

Each `interface` becomes a structure; a TypeScript optional key (`k?:`)
becomes an `Option` field, where `none` means the key is absent from the
object (not present with a null value). The `"@context"` and `"@type"`
literal fields are string fields always set by the constructors. -/

/-- The `publisher` sub-object of `WebsiteSchema`/`BlogPostingSchema`:
`{ "@type": "Person" | "Organization", name, url? }`. -/
structure PublisherObj where
  atType : String
  name : String
  url : Option String
deriving DecidableEq, Repr

/-- The `author` sub-object of `BlogPostingSchema`:
`{ "@type": "Person", name, url? }`. Its `"@type"` is the literal type
`"Person"`, so it is not a field of the structure; the JSON view emits it. -/
structure AuthorObj where
  name : String
  url : Option String
deriving DecidableEq, Repr

/-- The `mainEntityOfPage` sub-object of `BlogPostingSchema`:
`{ "@type": "WebPage", "@id": string }`; the literal `"@type"` lives only in
the JSON view. -/
structure MainEntityObj where
  atId : String
deriving DecidableEq, Repr

/-- `PersonSchema` from `jsonld.ts`. Its `"@context"` and `"@type"` keys are
literal types (`"https://schema.org"` and `"Person"`), so they are not
fields of the structure; the JSON view emits them. The same convention is
used for the other three schema interfaces. -/
structure PersonSchema where
  name : String
  url : String
  jobTitle : Option String
  description : Option String
  image : Option String
  sameAs : Option (List String)
deriving DecidableEq, Repr

/-- `WebsiteSchema` from `jsonld.ts`. -/
structure WebsiteSchema where
  name : String
  url : String
  description : Option String
  publisher : Option PublisherObj
deriving DecidableEq, Repr

/-- `BlogPostingSchema` from `jsonld.ts`. -/
structure BlogPostingSchema where
  headline : String
  description : String
  author : AuthorObj
  datePublished : String
  dateModified : Option String
  url : String
  image : Option String
  publisher : Option PublisherObj
  mainEntityOfPage : Option MainEntityObj
deriving DecidableEq, Repr

/-- One element of `BreadcrumbListSchema.itemListElement`:
`{ "@type": "ListItem", position, name, item? }`; the literal `"@type"`
lives only in the JSON view. -/
structure BreadcrumbElem where
  position : Nat
  name : String
  item : Option String
deriving DecidableEq, Repr

/-- `BreadcrumbListSchema` from `jsonld.ts`. -/
structure BreadcrumbListSchema where
  itemListElement : List BreadcrumbElem
deriving DecidableEq, Repr

/-! ## Constructor inputs -/

/-- The `data` parameter of `createPersonSchema`. -/
structure PersonData where
  name : String
  url : String
  jobTitle : Option String
  description : Option String
  image : Option String
  sameAs : Option (List String)
deriving DecidableEq, Repr

/-- The `data` parameter of `createWebsiteSchema`. -/
structure WebsiteData where
  name : String
  url : String
  description : Option String
  publisherName : Option String
  publisherUrl : Option String
deriving DecidableEq, Repr

/-- The `data` parameter of `createBlogPostSchema`. -/
structure BlogPostData where
  headline : String
  description : String
  authorName : String
  authorUrl : Option String
  datePublished : String
  dateModified : Option String
  url : String
  image : Option String
  publisherName : Option String
  publisherUrl : Option String
deriving DecidableEq, Repr

/-- One entry of the `items` parameter of `createBreadcrumbSchema`:
`{ name: string, url?: string }`. -/
structure BreadcrumbItem where
  name : String
  url : Option String
deriving DecidableEq, Repr

/-! ## Constructors -/

/-- `createPersonSchema` from `jsonld.ts`: base object with `@context`,
`@type`, `name`, `url`, then `if (data.x) schema.x = data.x` for each
optional field, and `if (data.sameAs && data.sameAs.length > 0)` for the
list field. -/
def createPersonSchema (data : PersonData) : PersonSchema :=
  { name := data.name
    url := data.url
    jobTitle := keepTruthy data.jobTitle
    description := keepTruthy data.description
    image := keepTruthy data.image
    sameAs := keepNonemptyList data.sameAs }

/-- The publisher object built by `createWebsiteSchema`/`createBlogPostSchema`:
set only when `data.publisherName` is truthy, with `url` added when
`data.publisherUrl` is truthy. -/
def mkPublisher (publisherName publisherUrl : Option String) : Option PublisherObj :=
  match keepTruthy publisherName with
  | none => none
  | some n => some { atType := "Person", name := n, url := keepTruthy publisherUrl }

/-- `createWebsiteSchema` from `jsonld.ts`. -/
def createWebsiteSchema (data : WebsiteData) : WebsiteSchema :=
  { name := data.name
    url := data.url
    description := keepTruthy data.description
    publisher := mkPublisher data.publisherName data.publisherUrl }

/-- `createBlogPostSchema` from `jsonld.ts`. Note that the base object
literal already contains `mainEntityOfPage: { "@type": "WebPage", "@id":
data.url }`, so that key is always present. -/
def createBlogPostSchema (data : BlogPostData) : BlogPostingSchema :=
  { headline := data.headline
    description := data.description
    author := { name := data.authorName, url := keepTruthy data.authorUrl }
    datePublished := data.datePublished
    dateModified := keepTruthy data.dateModified
    url := data.url
    image := keepTruthy data.image
    publisher := mkPublisher data.publisherName data.publisherUrl
    mainEntityOfPage := some { atId := data.url } }

/-! ## Breadcrumb construction -/

/-- The JS `String.prototype.startsWith` prefix test, embedded over the
underlying character lists so that it evaluates by kernel reduction. -/
def strStartsWith (s p : String) : Bool :=
  List.isPrefixOf p.toList s.toList

/-- Whether a string starts with `http://` or `https://`, the check
`createBreadcrumbSchema` uses to decide that an item URL is already
absolute. -/
def isHttpAbsolute (u : String) : Bool :=
  strStartsWith u "http://" || strStartsWith u "https://"

/-- Model of the WHATWG `new URL(rel, base).toString()` resolution invoked by
`createBreadcrumbSchema`, restricted to the cases reachable there: `base` is
a valid absolute http(s) URL (the site base URL) and `rel` is a relative
reference. A root-relative reference replaces the base's path; any other
reference is appended to the base's directory. -/
def urlResolve (rel base : String) : String :=
  let schemeEnd := if strStartsWith base "https://" then 8 else if strStartsWith base "http://" then 7 else 0
  let afterScheme := base.drop schemeEnd
  let host := afterScheme.takeWhile (fun c => c ≠ '/')
  let origin := base.take schemeEnd ++ host
  if strStartsWith rel "/" then
    origin ++ rel
  else
    let path := afterScheme.drop host.length
    let dir := path.dropRightWhile (fun c => c ≠ '/')
    let dir := if dir.isEmpty then "/" else dir
    origin ++ dir ++ rel

/-- The `item` URL computed for one breadcrumb entry: mirrors
`let itemUrl = item.url; if (itemUrl && baseUrl) { if (!absolute) itemUrl =
new URL(itemUrl, baseUrl).toString(); } ... (itemUrl && { item: itemUrl })`. -/
def resolveItemUrl (url baseUrl : Option String) : Option String :=
  let itemUrl := url
  let itemUrl :=
    if jsTruthy itemUrl && jsTruthy baseUrl then
      match itemUrl, baseUrl with
      | some u, some b => if !isHttpAbsolute u then some (urlResolve u b) else some u
      | u, _ => u
    else itemUrl
  if jsTruthy itemUrl then itemUrl else none

/-- One output element of `items.map((item, index) => ...)` in
`createBreadcrumbSchema`, at 0-based `index`. -/
def mkBreadcrumbElem (baseUrl : Option String) (index : Nat) (item : BreadcrumbItem) :
    BreadcrumbElem :=
  { position := index + 1
    name := item.name
    item := resolveItemUrl item.url baseUrl }

/-- The indexed map over the breadcrumb items, with `index` the 0-based
position of the first item of `items` in the original list. -/
def breadcrumbElems (baseUrl : Option String) : Nat → List BreadcrumbItem → List BreadcrumbElem
  | _, [] => []
  | index, item :: rest =>
      mkBreadcrumbElem baseUrl index item :: breadcrumbElems baseUrl (index + 1) rest

/-- `createBreadcrumbSchema` from `jsonld.ts`. -/
def createBreadcrumbSchema (items : List BreadcrumbItem) (baseUrl : Option String) :
    BreadcrumbListSchema :=
  { itemListElement := breadcrumbElems baseUrl 0 items }

/-! ## Rich-text documents and heading-anchor extraction

Model of the Storyblok rich-text tree walked by the documented
`headlineAnchorIds` pattern: nodes carry a `type` discriminator, optional
`text`, an optional ordered `marks` list and optional ordered children
(`content`); a mark carries a `type` and an optional attribute object with
an optional `id`. -/

/-- The `attrs` object of a mark; only the `id` attribute is inspected. -/
structure MarkAttrs where
  id : Option String
deriving DecidableEq, Repr

/-- A rich-text mark: `{ type, attrs? }`. -/
structure Mark where
  type : String
  attrs : Option MarkAttrs
deriving DecidableEq, Repr

/-- A rich-text node: `{ type, text?, marks?, content? }`. -/
inductive RTNode : Type where
  | node (type : String) (text : Option String) (marks : Option (List Mark))
      (content : Option (List RTNode))

/-- The `type` field of a node. -/
def RTNode.type : RTNode → String
  | .node t _ _ _ => t

/-- The `text` field of a node. -/
def RTNode.text : RTNode → Option String
  | .node _ t _ _ => t

/-- The `marks` field of a node. -/
def RTNode.marks : RTNode → Option (List Mark)
  | .node _ _ m _ => m

/-- The `content` field of a node. -/
def RTNode.content : RTNode → Option (List RTNode)
  | .node _ _ _ c => c

/-- One `{ id, text }` entry produced by the anchor extraction; both fields
come from optional chains and may be `undefined` (`none`). -/
structure AnchorEntry where
  id : Option String
  text : Option String
deriving DecidableEq, Repr

/-- `heading.content?.[0]?.marks?.find((mark) => mark.type === "anchor")`. -/
def findAnchorMark (heading : RTNode) : Option Mark :=
  (heading.content.bind List.head?).bind
    (fun first => first.marks.bind (List.find? (fun mark => mark.type == "anchor")))

/-- The `headlineAnchorIds` extraction documented in the Storyblok
integration guide:
filter the document's children to headings, map each heading to
`{ id: anchorMark?.attrs?.id, text: heading.content?.[0]?.text }`, then
`.filter((anchorId) => anchorId !== null && anchorId !== undefined)`.
The mapped value is always an object literal, which is never `null` or
`undefined` in JavaScript, so the final filter keeps every entry; it is
embedded as a filter with a constantly-true predicate. -/
def headlineAnchorIds (copy : RTNode) : List AnchorEntry :=
  match copy.content with
  | none => []
  | some items =>
      ((items.filter (fun item => item.type == "heading")).map (fun heading =>
        { id := (findAnchorMark heading).bind (fun mark => mark.attrs.bind (fun a => a.id))
          text := (heading.content.bind List.head?).bind (fun first => first.text)
          : AnchorEntry })).filter (fun _ => true)

/-! ## Build-mode version resolver (`src/utils/env.ts`) -/

/-- The ambient `import.meta.env` state read by `env.ts`. -/
structure ImportMetaEnv where
  DEV : Bool
  MODE : String
deriving DecidableEq, Repr

/-- `isDevelopment` from `env.ts`. -/
def isDevelopment (env : ImportMetaEnv) : Bool :=
  env.DEV || env.MODE == "development"

/-- `getStoryblokVersion` from `env.ts`: `draft` for development/staging,
`published` for production. -/
def getStoryblokVersion (env : ImportMetaEnv) : String :=
  if isDevelopment env then "draft" else "published"

/-! ## RSS feed endpoint (`src/pages/rss.xml.js`) -/

/-- The parameters of the `cdn/stories` query issued by the feed endpoint. -/
structure StoriesQuery where
  content_type : String
  version : String
deriving DecidableEq, Repr

/-- The story query issued by `GET` in `rss.xml.js`. It takes the ambient
build environment as a parameter only to show that it ignores it: the
source hardcodes `version: "published"` instead of calling
`getStoryblokVersion()`. -/
def rssStoriesQuery (_env : ImportMetaEnv) : StoriesQuery :=
  { content_type := "blogPost", version := "published" }

/-- The `content` object of a story, of which the feed uses `description`. -/
structure StoryContent where
  description : String
deriving DecidableEq, Repr

/-- A story as consumed by the feed endpoint. -/
structure Story where
  name : String
  slug : String
  published_at : String
  content : StoryContent
deriving DecidableEq, Repr

/-- Model of the JS `new Date(s)` constructor as used by the feed: a
timestamp value determined by the source string it was parsed from (the
platform's date parsing itself is not modelled). -/
structure JsDate where
  source : String
deriving DecidableEq, Repr

/-- `new Date(s)`. -/
def jsNewDate (s : String) : JsDate := { source := s }

/-- One feed item as passed to the `rss()` helper. -/
structure RssItem where
  title : String
  pubDate : JsDate
  description : String
  link : String
deriving DecidableEq, Repr

/-- The `items` mapping in `GET` of `rss.xml.js`: one entry per story, in
story order. -/
def rssFeedItems (stories : List Story) : List RssItem :=
  stories.map (fun post =>
    { title := post.name
      pubDate := jsNewDate post.published_at
      description := post.content.description
      link := "/blog/" ++ post.slug ++ "/" })

/-! ## Image derivation engine

`src/utils/optimizeImage.ts` is not among the provided sources; only its
callers and the documentation describe it. The definitions below are
therefore modelled from the specification (spec §4.1, §7, §8). -/

/-- The two failure classes of the image derivation engine. -/
inductive ImageError : Type where
  | validationError (msg : String)
  | configurationError (msg : String)
deriving DecidableEq, Repr

/-- The constraint set `{width?, height?, quality?, format?}` of the
single-image transform. -/
structure ImageTransformOptions where
  width : Option Int
  height : Option Int
  quality : Option Nat
  format : Option String
deriving DecidableEq, Repr

/-- The dimension segment of a transformation URL: omitted when width and
height are both absent, `WxH` otherwise (0 standing for an unconstrained
dimension). -/
def geometrySegment (w h : Option Int) : String :=
  match w, h with
  | none, none => ""
  | some w, some h => "/" ++ toString w ++ "x" ++ toString h
  | some w, none => "/" ++ toString w ++ "x0"
  | none, some h => "/0x" ++ toString h

/-- The filter segment of a transformation URL, encoding format and
quality. -/
def filtersSegment (format : Option String) (quality : Option Nat) : String :=
  let fs := (match format with | some f => ["format(" ++ f ++ ")"] | none => [])
      ++ (match quality with | some q => ["quality(" ++ toString q ++ ")"] | none => [])
  if fs.isEmpty then "" else "/filters:" ++ String.intercalate ":" fs

/-- Modelled from the spec: `optimizeStoryblokImage` of the missing
`src/utils/optimizeImage.ts`. Appends a transformation segment encoding the
requested geometry and filters to an absolute asset URL; fails with a
`ValidationError` if the input is not an absolute URL. -/
def optimizeStoryblokImage (filename : String) (opts : ImageTransformOptions) :
    Except ImageError String :=
  if !isHttpAbsolute filename then
    .error (.validationError "asset URL must be absolute")
  else
    .ok (filename ++ "/m" ++ geometrySegment opts.width opts.height
      ++ filtersSegment opts.format opts.quality)

/-- The options of the responsive descriptor build: breakpoints, aspect
ratio (width/height) and media-condition size hints. -/
structure ResponsiveImageOptions where
  breakpoints : List Int
  aspectRatio : ℚ
  sizes : String
deriving DecidableEq, Repr

/-- One responsive candidate: a derived URL keyed by its pixel width. -/
structure ImageCandidate where
  url : String
  width : Int
deriving DecidableEq, Repr

/-- The responsive image descriptor `{primaryUrl, candidates, sizeHints}`. -/
structure ResponsiveImageDescriptor where
  primaryUrl : String
  candidates : List ImageCandidate
  sizeHints : String
deriving DecidableEq, Repr

/-- The derived height of a candidate: `round(width / aspectRatio)`,
with `round` rounding half upwards as JS `Math.round` does. -/
def derivedHeight (w : Int) (r : ℚ) : Int :=
  round ((w : ℚ) / r)

/-- The constraint set the responsive build passes to the single-image
transform for a breakpoint width. -/
def candidateOptions (w : Int) (r : ℚ) : ImageTransformOptions :=
  { width := some w, height := some (derivedHeight w r), quality := none,
    format := some "webp" }

/-- Modelled from the spec: `generateResponsiveImageData` of the missing
`src/utils/optimizeImage.ts`. Validates the configuration (non-empty,
positive, duplicate-free breakpoints and a positive aspect ratio), derives
one candidate per breakpoint in breakpoint order via the single-image
transform with `height = round(width / aspectRatio)`, and uses the largest
breakpoint for the primary URL. -/
def generateResponsiveImageData (filename : String) (opts : ResponsiveImageOptions) :
    Except ImageError ResponsiveImageDescriptor :=
  if opts.breakpoints = [] ∨ opts.breakpoints.any (fun w => w ≤ 0) = true ∨
      ¬ opts.breakpoints.Nodup ∨ opts.aspectRatio ≤ 0 then
    .error (.configurationError "invalid breakpoints or aspect ratio")
  else do
    let candidates ← opts.breakpoints.mapM (fun w => do
      let u ← optimizeStoryblokImage filename (candidateOptions w opts.aspectRatio)
      pure { url := u, width := w : ImageCandidate })
    let largest := opts.breakpoints.foldl max 0
    let primaryUrl ← optimizeStoryblokImage filename (candidateOptions largest opts.aspectRatio)
    pure { primaryUrl := primaryUrl, candidates := candidates, sizeHints := opts.sizes }

/-! ## JSON values, serialization and parsing

`schemaToJson` in `jsonld.ts` is `JSON.stringify(schema)`. The schema
objects only ever contain strings, non-negative integers, arrays and plain
objects, so JSON values are embedded with exactly those constructors;
`render` mirrors the compact output of `JSON.stringify` (insertion-ordered
keys, no whitespace, standard string escaping) and `parseJson` is a
recursive-descent parser for that compact form. -/

/-- A JSON value as produced by serializing a schema object. -/
inductive Json : Type where
  | str (s : String)
  | num (n : Nat)
  | arr (elems : List Json)
  | obj (members : List (String × Json))

/-- The decimal digit character for `n < 10`. -/
def digitChar (n : Nat) : Char :=
  Char.ofNat (48 + n)

/-- The decimal digit characters of `n`, most significant first. -/
def natToDigits (n : Nat) : List Char :=
  if h : n < 10 then [digitChar n]
  else natToDigits (n / 10) ++ [digitChar (n % 10)]
termination_by n
decreasing_by
  exact Nat.div_lt_self (Nat.lt_of_lt_of_le (by decide) (Nat.le_of_not_lt h)) (by decide)

/-- The lowercase hexadecimal digit character for `n < 16`. -/
def hexDigitChar (n : Nat) : Char :=
  if n < 10 then Char.ofNat (48 + n) else Char.ofNat (87 + n)

/-- The escape sequence `JSON.stringify` emits for one character: quote and
backslash are backslash-escaped, the named control characters use their
short escapes, the remaining control characters use `\u00XX`, and every
other character stands for itself. -/
def escapeChar (c : Char) : List Char :=
  if c = '"' then ['\\', '"']
  else if c = '\\' then ['\\', '\\']
  else if c = '\n' then ['\\', 'n']
  else if c = '\r' then ['\\', 'r']
  else if c = '\t' then ['\\', 't']
  else if c = '\x08' then ['\\', 'b']
  else if c = '\x0c' then ['\\', 'f']
  else if c.toNat < 32 then
    ['\\', 'u', '0', '0', hexDigitChar (c.toNat / 16), hexDigitChar (c.toNat % 16)]
  else [c]

/-- The escaped body of a JSON string literal. -/
def escapeString (s : String) : List Char :=
  (s.toList.map escapeChar).flatten

/-- A JSON string literal: quote, escaped body, quote. -/
def renderStringChars (s : String) : List Char :=
  '"' :: (escapeString s ++ ['"'])

mutual

/-- The characters `JSON.stringify` emits for a value. -/
def renderVal : Json → List Char
  | .str s => renderStringChars s
  | .num n => natToDigits n
  | .arr l => '[' :: (renderArrItems l ++ [']'])
  | .obj m => '\x7b' :: (renderObjItems m ++ ['\x7d'])

/-- The comma-separated renderings of array elements. -/
def renderArrItems : List Json → List Char
  | [] => []
  | v :: rest => renderVal v ++ renderArrTail rest

/-- The renderings of array elements after the first, each preceded by a
comma. -/
def renderArrTail : List Json → List Char
  | [] => []
  | v :: rest => ',' :: (renderVal v ++ renderArrTail rest)

/-- The comma-separated renderings of object members. -/
def renderObjItems : List (String × Json) → List Char
  | [] => []
  | (k, v) :: rest => renderStringChars k ++ (':' :: renderVal v ++ renderObjTail rest)

/-- The renderings of object members after the first, each preceded by a
comma. -/
def renderObjTail : List (String × Json) → List Char
  | [] => []
  | (k, v) :: rest => ',' :: (renderStringChars k ++ (':' :: renderVal v ++ renderObjTail rest))

end

/-- The numeric value of a hexadecimal digit character, if it is one. -/
def fromHexChar (c : Char) : Option Nat :=
  if 48 ≤ c.toNat ∧ c.toNat ≤ 57 then some (c.toNat - 48)
  else if 97 ≤ c.toNat ∧ c.toNat ≤ 102 then some (c.toNat - 87)
  else if 65 ≤ c.toNat ∧ c.toNat ≤ 70 then some (c.toNat - 55)
  else none

/-- Parses the body of a JSON string literal (after its opening quote) up to
and including the closing quote, unescaping as it goes; returns the decoded
characters and the remaining input. -/
def parseStrChars : List Char → Option (List Char × List Char)
  | [] => none
  | c :: rest =>
    if c = '"' then some ([], rest)
    else if c = '\\' then
      match rest with
      | [] => none
      | e :: rest2 =>
        if e = '"' then (parseStrChars rest2).map (fun p => ('"' :: p.1, p.2))
        else if e = '\\' then (parseStrChars rest2).map (fun p => ('\\' :: p.1, p.2))
        else if e = '/' then (parseStrChars rest2).map (fun p => ('/' :: p.1, p.2))
        else if e = 'n' then (parseStrChars rest2).map (fun p => ('\n' :: p.1, p.2))
        else if e = 'r' then (parseStrChars rest2).map (fun p => ('\r' :: p.1, p.2))
        else if e = 't' then (parseStrChars rest2).map (fun p => ('\t' :: p.1, p.2))
        else if e = 'b' then (parseStrChars rest2).map (fun p => ('\x08' :: p.1, p.2))
        else if e = 'f' then (parseStrChars rest2).map (fun p => ('\x0c' :: p.1, p.2))
        else if e = 'u' then
          match rest2 with
          | h1 :: h2 :: h3 :: h4 :: rest3 =>
            match fromHexChar h1, fromHexChar h2, fromHexChar h3, fromHexChar h4 with
            | some d1, some d2, some d3, some d4 =>
                (parseStrChars rest3).map
                  (fun p => (Char.ofNat (((d1 * 16 + d2) * 16 + d3) * 16 + d4) :: p.1, p.2))
            | _, _, _, _ => none
          | _ => none
        else none
    else (parseStrChars rest).map (fun p => (c :: p.1, p.2))

/-- Splits off the longest prefix of decimal digit characters. -/
def takeDigits : List Char → List Char × List Char
  | [] => ([], [])
  | c :: rest =>
    if c.isDigit then
      let p := takeDigits rest
      (c :: p.1, p.2)
    else ([], c :: rest)

/-- The numeric value of a list of decimal digit characters. -/
def digitsToNat (ds : List Char) : Nat :=
  ds.foldl (fun acc c => acc * 10 + (c.toNat - 48)) 0

mutual

/-- Parses one JSON value; `fuel` bounds the recursion depth and is in
practice the input length plus one. -/
def parseVal (fuel : Nat) (input : List Char) : Option (Json × List Char) :=
  match fuel, input with
  | 0, _ => none
  | _ + 1, [] => none
  | fuel + 1, c :: rest =>
    if c = '"' then (parseStrChars rest).map (fun p => (.str (String.mk p.1), p.2))
    else if c = '[' then parseArrBody fuel rest
    else if c = '\x7b' then parseObjBody fuel rest
    else if c.isDigit then
      let p := takeDigits (c :: rest)
      some (.num (digitsToNat p.1), p.2)
    else none

/-- Parses the inside of an array (after `[`). -/
def parseArrBody (fuel : Nat) (input : List Char) : Option (Json × List Char) :=
  match fuel, input with
  | 0, _ => none
  | _ + 1, [] => none
  | fuel + 1, c :: rest =>
    if c = ']' then some (.arr [], rest)
    else do
      let (v, r1) ← parseVal fuel (c :: rest)
      let (vs, r2) ← parseArrTail fuel r1
      pure (.arr (v :: vs), r2)

/-- Parses the elements of an array after the first one: either the closing
bracket or a comma followed by a value. -/
def parseArrTail (fuel : Nat) (input : List Char) : Option (List Json × List Char) :=
  match fuel, input with
  | 0, _ => none
  | _ + 1, [] => none
  | fuel + 1, c :: rest =>
    if c = ']' then some ([], rest)
    else if c = ',' then do
      let (v, r1) ← parseVal fuel rest
      let (vs, r2) ← parseArrTail fuel r1
      pure (v :: vs, r2)
    else none

/-- Parses the inside of an object (after the opening brace). -/
def parseObjBody (fuel : Nat) (input : List Char) : Option (Json × List Char) :=
  match fuel, input with
  | 0, _ => none
  | _ + 1, [] => none
  | fuel + 1, c :: rest =>
    if c = '\x7d' then some (.obj [], rest)
    else if c = '"' then do
      let (k, r1) ← parseStrChars rest
      match r1 with
      | ':' :: r2 => do
        let (v, r3) ← parseVal fuel r2
        let (ms, r4) ← parseObjTail fuel r3
        pure (.obj ((String.mk k, v) :: ms), r4)
      | _ => none
    else none

/-- Parses the members of an object after the first one: either the closing
brace or a comma followed by a key-value pair. -/
def parseObjTail (fuel : Nat) (input : List Char) :
    Option (List (String × Json) × List Char) :=
  match fuel, input with
  | 0, _ => none
  | _ + 1, [] => none
  | fuel + 1, c :: rest =>
    if c = '\x7d' then some ([], rest)
    else if c = ',' then
      match rest with
      | '"' :: r0 => do
        let (k, r1) ← parseStrChars r0
        match r1 with
        | ':' :: r2 => do
          let (v, r3) ← parseVal fuel r2
          let (ms, r4) ← parseObjTail fuel r3
          pure ((String.mk k, v) :: ms, r4)
        | _ => none
      | _ => none
    else none

end

/-- Parses a complete JSON document: one value consuming the entire input. -/
def parseJson (s : String) : Option Json :=
  match parseVal (s.toList.length + 1) s.toList with
  | some (j, []) => some j
  | _ => none

/-! ## The JSON view of schema objects

A schema object is a plain JS object; its JSON view lists its present keys
in insertion order, exactly as `JSON.stringify` traverses them. -/

/-- The member list contributed by an optional string-valued key. -/
def optStrMember (k : String) : Option String → List (String × Json)
  | none => []
  | some v => [(k, .str v)]

/-- The JSON view of a `publisher` sub-object. -/
def publisherToJson (p : PublisherObj) : Json :=
  .obj ([("@type", .str p.atType), ("name", .str p.name)] ++ optStrMember "url" p.url)

/-- The JSON view of an `author` sub-object. -/
def authorToJson (a : AuthorObj) : Json :=
  .obj ([("@type", .str "Person"), ("name", .str a.name)] ++ optStrMember "url" a.url)

/-- The JSON view of a `mainEntityOfPage` sub-object. -/
def mainEntityToJson (m : MainEntityObj) : Json :=
  .obj [("@type", .str "WebPage"), ("@id", .str m.atId)]

/-- The JSON view of a `PersonSchema`, keys in insertion order. -/
def personToJson (p : PersonSchema) : Json :=
  .obj ([("@context", .str "https://schema.org"), ("@type", .str "Person"),
      ("name", .str p.name), ("url", .str p.url)]
    ++ optStrMember "jobTitle" p.jobTitle
    ++ optStrMember "description" p.description
    ++ optStrMember "image" p.image
    ++ (match p.sameAs with
        | none => []
        | some l => [("sameAs", .arr (l.map .str))]))

/-- The JSON view of a `WebsiteSchema`, keys in insertion order. -/
def websiteToJson (w : WebsiteSchema) : Json :=
  .obj ([("@context", .str "https://schema.org"), ("@type", .str "WebSite"),
      ("name", .str w.name), ("url", .str w.url)]
    ++ optStrMember "description" w.description
    ++ (match w.publisher with
        | none => []
        | some p => [("publisher", publisherToJson p)]))

/-- The JSON view of a `BlogPostingSchema`, keys in insertion order: the
base literal's keys (including `mainEntityOfPage`) followed by the
conditionally assigned ones. -/
def blogPostingToJson (b : BlogPostingSchema) : Json :=
  .obj ([("@context", .str "https://schema.org"), ("@type", .str "BlogPosting"),
      ("headline", .str b.headline), ("description", .str b.description),
      ("author", authorToJson b.author), ("datePublished", .str b.datePublished),
      ("url", .str b.url)]
    ++ (match b.mainEntityOfPage with
        | none => []
        | some m => [("mainEntityOfPage", mainEntityToJson m)])
    ++ optStrMember "dateModified" b.dateModified
    ++ optStrMember "image" b.image
    ++ (match b.publisher with
        | none => []
        | some p => [("publisher", publisherToJson p)]))

/-- The JSON view of one breadcrumb list element. -/
def breadcrumbElemToJson (e : BreadcrumbElem) : Json :=
  .obj ([("@type", .str "ListItem"), ("position", .num e.position),
      ("name", .str e.name)]
    ++ optStrMember "item" e.item)

/-- The JSON view of a `BreadcrumbListSchema`. -/
def breadcrumbToJson (l : BreadcrumbListSchema) : Json :=
  .obj [("@context", .str "https://schema.org"), ("@type", .str "BreadcrumbList"),
    ("itemListElement", .arr (l.itemListElement.map breadcrumbElemToJson))]

/-- One of the four schema variants of the `JSONLDSchema` union. -/
inductive SchemaObj : Type where
  | person (p : PersonSchema)
  | website (w : WebsiteSchema)
  | blogPosting (b : BlogPostingSchema)
  | breadcrumbList (l : BreadcrumbListSchema)
deriving DecidableEq, Repr

/-- The `JSONLDSchema` union of `jsonld.ts`: a single schema object or an
array of them. -/
inductive JSONLDSchema : Type where
  | single (s : SchemaObj)
  | array (l : List SchemaObj)
deriving DecidableEq, Repr

/-- The JSON view of one schema variant. -/
def schemaObjToJson : SchemaObj → Json
  | .person p => personToJson p
  | .website w => websiteToJson w
  | .blogPosting b => blogPostingToJson b
  | .breadcrumbList l => breadcrumbToJson l

/-- The JSON view of a `JSONLDSchema` value. -/
def jsonldToJson : JSONLDSchema → Json
  | .single s => schemaObjToJson s
  | .array l => .arr (l.map schemaObjToJson)

/-- `schemaToJson` from `jsonld.ts`: `JSON.stringify(schema)`. -/
def schemaToJson (schema : JSONLDSchema) : String :=
  String.mk (renderVal (jsonldToJson schema))

/-! ## Decoding schema objects back from JSON

Used to show the encoding is lossless: decoding is a left inverse of the
JSON view on schema values. -/

/-- Looks up a key among object members (`none` on non-objects). -/
def jsonLookup (k : String) : Json → Option Json
  | .obj members => members.lookup k
  | _ => none

/-- Extracts a string value. -/
def asStr : Json → Option String
  | .str s => some s
  | _ => none

/-- Extracts a numeric value. -/
def asNum : Json → Option Nat
  | .num n => some n
  | _ => none

/-- An optional string-valued key: absent stays absent, present must be a
string. -/
def optStrOf (j : Json) (k : String) : Option String :=
  (jsonLookup k j).bind asStr

/-- Decodes a list of JSON strings. -/
def asStrList : List Json → Option (List String)
  | [] => some []
  | .str s :: rest => (asStrList rest).map (fun l => s :: l)
  | _ => none

/-- Decodes a `publisher`/`author`-shaped sub-object. -/
def decodePublisher (j : Json) : Option PublisherObj := do
  let t ← (jsonLookup "@type" j).bind asStr
  let n ← (jsonLookup "name" j).bind asStr
  pure { atType := t, name := n, url := optStrOf j "url" }

/-- Decodes an `author` sub-object. -/
def decodeAuthor (j : Json) : Option AuthorObj := do
  let n ← (jsonLookup "name" j).bind asStr
  pure { name := n, url := optStrOf j "url" }

/-- Decodes a `mainEntityOfPage` sub-object. -/
def decodeMainEntity (j : Json) : Option MainEntityObj := do
  let i ← (jsonLookup "@id" j).bind asStr
  pure { atId := i }

/-- Decodes a `PersonSchema`. -/
def decodePerson (j : Json) : Option PersonSchema := do
  let n ← (jsonLookup "name" j).bind asStr
  let u ← (jsonLookup "url" j).bind asStr
  let sameAs ← match jsonLookup "sameAs" j with
    | none => pure none
    | some (.arr l) => (asStrList l).map some
    | some _ => none
  pure { name := n
         url := u
         jobTitle := optStrOf j "jobTitle"
         description := optStrOf j "description"
         image := optStrOf j "image"
         sameAs := sameAs }

/-- Decodes a `WebsiteSchema`. -/
def decodeWebsite (j : Json) : Option WebsiteSchema := do
  let n ← (jsonLookup "name" j).bind asStr
  let u ← (jsonLookup "url" j).bind asStr
  let pub ← match jsonLookup "publisher" j with
    | none => pure none
    | some pj => (decodePublisher pj).map some
  pure { name := n
         url := u
         description := optStrOf j "description"
         publisher := pub }

/-- Decodes a `BlogPostingSchema`. -/
def decodeBlogPosting (j : Json) : Option BlogPostingSchema := do
  let h ← (jsonLookup "headline" j).bind asStr
  let d ← (jsonLookup "description" j).bind asStr
  let a ← (jsonLookup "author" j).bind decodeAuthor
  let dp ← (jsonLookup "datePublished" j).bind asStr
  let u ← (jsonLookup "url" j).bind asStr
  let pub ← match jsonLookup "publisher" j with
    | none => pure none
    | some pj => (decodePublisher pj).map some
  let meop ← match jsonLookup "mainEntityOfPage" j with
    | none => pure none
    | some mj => (decodeMainEntity mj).map some
  pure { headline := h
         description := d
         author := a
         datePublished := dp
         dateModified := optStrOf j "dateModified"
         url := u
         image := optStrOf j "image"
         publisher := pub
         mainEntityOfPage := meop }

/-- Decodes one breadcrumb list element. -/
def decodeBreadcrumbElem (j : Json) : Option BreadcrumbElem := do
  let p ← (jsonLookup "position" j).bind asNum
  let n ← (jsonLookup "name" j).bind asStr
  pure { position := p, name := n, item := optStrOf j "item" }

/-- Decodes a list of breadcrumb elements. -/
def decodeElems : List Json → Option (List BreadcrumbElem)
  | [] => some []
  | j :: rest => do
      let e ← decodeBreadcrumbElem j
      let es ← decodeElems rest
      pure (e :: es)

/-- Decodes a `BreadcrumbListSchema`. -/
def decodeBreadcrumb (j : Json) : Option BreadcrumbListSchema := do
  let elems ← match jsonLookup "itemListElement" j with
    | some (.arr l) => decodeElems l
    | _ => none
  pure { itemListElement := elems }

/-- Decodes one schema variant, dispatching on the `@type` tag. -/
def decodeSchemaObj (j : Json) : Option SchemaObj := do
  let t ← (jsonLookup "@type" j).bind asStr
  if t = "Person" then (decodePerson j).map .person
  else if t = "WebSite" then (decodeWebsite j).map .website
  else if t = "BlogPosting" then (decodeBlogPosting j).map .blogPosting
  else if t = "BreadcrumbList" then (decodeBreadcrumb j).map .breadcrumbList
  else none

/-- Decodes a list of schema objects. -/
def decodeObjs : List Json → Option (List SchemaObj)
  | [] => some []
  | j :: rest => do
      let s ← decodeSchemaObj j
      let ss ← decodeObjs rest
      pure (s :: ss)

/-- Decodes a `JSONLDSchema` value: an object is a single schema, an array
is a list of schemas. -/
def decodeJsonld : Json → Option JSONLDSchema
  | .arr l => (decodeObjs l).map .array
  | j => (decodeSchemaObj j).map .single

/-- The keys of a JSON object, in order (empty for non-objects). -/
def jsonKeys : Json → List String
  | .obj members => members.map (fun m => m.1)
  | _ => []

mutual

/-- A sufficient amount of parser fuel for one JSON value. -/
def needJ : Json → Nat
  | .str _ => 1
  | .num _ => 1
  | .arr l => 1 + needA l
  | .obj m => 1 + needO m

/-- A sufficient amount of parser fuel for the elements of an array. -/
def needA : List Json → Nat
  | [] => 1
  | v :: rest => 1 + max (needJ v) (needA rest)

/-- A sufficient amount of parser fuel for the members of an object. -/
def needO : List (String × Json) → Nat
  | [] => 1
  | (_, v) :: rest => 1 + max (needJ v) (needO rest)

end

/-! # Theorems -/

/-! ## Breadcrumb helper lemmas -/

lemma breadcrumbElems_length (b : Option String) (i : Nat) (items : List BreadcrumbItem) :
    (breadcrumbElems b i items).length = items.length := by
  induction items generalizing i with
  | nil => rfl
  | cons x xs ih => simp [breadcrumbElems, ih]

lemma breadcrumbElems_map_position (b : Option String) (i : Nat)
    (items : List BreadcrumbItem) :
    (breadcrumbElems b i items).map (fun e => e.position) =
      List.range' (i + 1) items.length := by
  induction items generalizing i with
  | nil => rfl
  | cons x xs ih =>
      simp only [breadcrumbElems, List.map_cons, List.length_cons, List.range'_succ,
        mkBreadcrumbElem, ih]

lemma breadcrumbElems_map_name (b : Option String) (i : Nat)
    (items : List BreadcrumbItem) :
    (breadcrumbElems b i items).map (fun e => e.name) = items.map (fun it => it.name) := by
  induction items generalizing i with
  | nil => rfl
  | cons x xs ih => simp [breadcrumbElems, mkBreadcrumbElem, ih]

lemma breadcrumbElems_append (b : Option String) (i : Nat)
    (pre post : List BreadcrumbItem) :
    breadcrumbElems b i (pre ++ post) =
      breadcrumbElems b i pre ++ breadcrumbElems b (i + pre.length) post := by
  induction pre generalizing i with
  | nil => simp [breadcrumbElems]
  | cons x xs ih =>
      have hidx : i + 1 + xs.length = i + (xs.length + 1) := by omega
      show mkBreadcrumbElem b i x :: breadcrumbElems b (i + 1) (xs ++ post) =
        mkBreadcrumbElem b i x ::
          (breadcrumbElems b (i + 1) xs ++ breadcrumbElems b (i + (xs.length + 1)) post)
      rw [ih, hidx]

@[simp] lemma isEmpty_empty_string : "".isEmpty = true := rfl

lemma keepTruthy_none : keepTruthy none = none := rfl

lemma keepTruthy_empty : keepTruthy (some "") = none := rfl

lemma keepNonemptyList_none : keepNonemptyList none = none := rfl

lemma keepNonemptyList_nil : keepNonemptyList (some []) = none := rfl

lemma mkPublisher_empty_name (u : Option String) :
    mkPublisher (some "") u = mkPublisher none u := rfl

lemma mkPublisher_empty_url (n : Option String) :
    mkPublisher n (some "") = mkPublisher n none := by
  simp [mkPublisher, keepTruthy_empty, keepTruthy_none]

lemma resolveItemUrl_empty_url (b : Option String) :
    resolveItemUrl (some "") b = resolveItemUrl none b := by
  cases b <;> simp [resolveItemUrl, jsTruthy]

lemma resolveItemUrl_empty_base (u : Option String) :
    resolveItemUrl u (some "") = resolveItemUrl u none := by
  cases u <;> simp [resolveItemUrl, jsTruthy]

lemma breadcrumbElems_empty_base (i : Nat) (items : List BreadcrumbItem) :
    breadcrumbElems (some "") i items = breadcrumbElems none i items := by
  induction items generalizing i with
  | nil => rfl
  | cons x xs ih => simp [breadcrumbElems, mkBreadcrumbElem, resolveItemUrl_empty_base, ih]

/-! ## C1 -/

/-- C1 (evaluation at the failing input): on a document whose headings are
"Intro" with anchor `a1`, "Middle" with no anchor mark, and "End" with
anchor `a2`, the `headlineAnchorIds` extraction does NOT skip the
anchor-less heading: it yields three entries, the middle one an id-less
`{ id: undefined, text: "Middle" }`, because the final
`filter(a => a !== null && a !== undefined)` tests the mapped object (never
nullish) instead of its `id`. The claim (and spec §8) require the entry
list `[{a1, Intro}, {a2, End}]` here. -/
theorem c1_anchorless_heading_not_skipped :
    headlineAnchorIds (.node "doc" none none (some
      [ .node "heading" none none (some
          [ .node "text" (some "Intro")
              (some [{ type := "anchor", attrs := some { id := some "a1" } }]) none ]),
        .node "heading" none none (some
          [ .node "text" (some "Middle") none none ]),
        .node "heading" none none (some
          [ .node "text" (some "End")
              (some [{ type := "anchor", attrs := some { id := some "a2" } }]) none ]) ])) =
      [{ id := some "a1", text := some "Intro" },
       { id := none, text := some "Middle" },
       { id := some "a2", text := some "End" }] := by
  rfl

/-! ## C2 -/

/-- C2 (counterexample): `createBlogPostSchema` invoked with only its
required fields (headline, description, authorName, datePublished, url)
yields an object that DOES contain the optional key `mainEntityOfPage` —
the base object literal always sets it — so the key set is not "exactly the
required fields plus the type tag". -/
theorem c2_counterexample_blogposting_mainentity :
    jsonKeys (blogPostingToJson (createBlogPostSchema
      { headline := "h", description := "d", authorName := "a", authorUrl := none,
        datePublished := "2024-01-01", dateModified := none,
        url := "https://tufancalisir.de/blog/p/", image := none,
        publisherName := none, publisherUrl := none })) =
      ["@context", "@type", "headline", "description", "author", "datePublished",
       "url", "mainEntityOfPage"] := by
  rfl

/-- C2 (amended): with only required fields supplied, `createPersonSchema`,
`createWebsiteSchema` and `createBreadcrumbSchema` produce objects whose
keys are exactly the required fields plus the `@context`/`@type` tags, and
no optional key appears; `createBlogPostSchema` produces exactly those keys
plus `mainEntityOfPage`, which it always sets to the WebPage reference of
the post's own URL (its `author` sub-object carries no optional `url`
key). -/
theorem c2_minimal_constructor_keys :
    (∀ n u, jsonKeys (personToJson (createPersonSchema
        { name := n, url := u, jobTitle := none, description := none,
          image := none, sameAs := none })) =
      ["@context", "@type", "name", "url"]) ∧
    (∀ n u, jsonKeys (websiteToJson (createWebsiteSchema
        { name := n, url := u, description := none, publisherName := none,
          publisherUrl := none })) =
      ["@context", "@type", "name", "url"]) ∧
    (∀ h d a dp u, jsonKeys (blogPostingToJson (createBlogPostSchema
        { headline := h, description := d, authorName := a, authorUrl := none,
          datePublished := dp, dateModified := none, url := u, image := none,
          publisherName := none, publisherUrl := none })) =
      ["@context", "@type", "headline", "description", "author", "datePublished",
       "url", "mainEntityOfPage"]) ∧
    (∀ h d a dp u, (createBlogPostSchema
        { headline := h, description := d, authorName := a, authorUrl := none,
          datePublished := dp, dateModified := none, url := u, image := none,
          publisherName := none, publisherUrl := none }).mainEntityOfPage =
      some { atId := u }) ∧
    (∀ h d a dp u, jsonKeys (authorToJson (createBlogPostSchema
        { headline := h, description := d, authorName := a, authorUrl := none,
          datePublished := dp, dateModified := none, url := u, image := none,
          publisherName := none, publisherUrl := none }).author) =
      ["@type", "name"]) ∧
    (∀ items b, jsonKeys (breadcrumbToJson (createBreadcrumbSchema items b)) =
      ["@context", "@type", "itemListElement"]) ∧
    (∀ name i b, jsonKeys (breadcrumbElemToJson
        (mkBreadcrumbElem b i { name := name, url := none })) =
      ["@type", "position", "name"]) := by
  refine ⟨?_, ?_, ?_, ?_, ?_, ?_, ?_⟩ <;>
    intros <;>
    simp [jsonKeys, personToJson, websiteToJson, blogPostingToJson, breadcrumbToJson,
      breadcrumbElemToJson, authorToJson, createPersonSchema, createWebsiteSchema,
      createBlogPostSchema, createBreadcrumbSchema, mkPublisher, mkBreadcrumbElem,
      mainEntityToJson, keepTruthy, keepNonemptyList, optStrMember, resolveItemUrl, jsTruthy]

/-! ## C3 -/

/-- C3: breadcrumb synthesis over any item list yields exactly one output
element per input item, whose `position` values are `1, 2, ..., n` in input
order and whose names follow the input order — no reordering, no
deduplication — for every choice of base URL and regardless of which items
carry URLs. -/
theorem c3_breadcrumb_positions (items : List BreadcrumbItem) (baseUrl : Option String) :
    ((createBreadcrumbSchema items baseUrl).itemListElement).length = items.length ∧
    ((createBreadcrumbSchema items baseUrl).itemListElement).map (fun e => e.position) =
      List.range' 1 items.length ∧
    ((createBreadcrumbSchema items baseUrl).itemListElement).map (fun e => e.name) =
      items.map (fun it => it.name) := by
  refine ⟨?_, ?_, ?_⟩
  · exact breadcrumbElems_length baseUrl 0 items
  · exact breadcrumbElems_map_position baseUrl 0 items
  · exact breadcrumbElems_map_name baseUrl 0 items

/-! ## C4 -/

lemma breadcrumbElems_getElem? (b : Option String) (k i : Nat)
    (items : List BreadcrumbItem) :
    (breadcrumbElems b k items)[i]? = (items[i]?).map (mkBreadcrumbElem b (k + i)) := by
  induction items generalizing k i with
  | nil => simp [breadcrumbElems]
  | cons x xs ih =>
      cases i with
      | zero => simp [breadcrumbElems]
      | succ i =>
          have hidx : k + 1 + i = k + (i + 1) := by omega
          simp only [breadcrumbElems, List.getElem?_cons_succ, ih, hidx]

lemma ne_empty_of_isEmpty_false (u : String) (h : u.isEmpty = false) : u ≠ "" := by
  intro he
  rw [he] at h
  exact absurd h (by decide)

lemma length_pos_of_ne_empty (u : String) (h : u ≠ "") : 0 < u.length := by
  cases u with
  | mk data =>
      cases data with
      | nil => exact absurd rfl h
      | cons c cs => simp [String.length]

lemma isEmpty_false_of_length_pos (u : String) (h : 0 < u.length) :
    u.isEmpty = false := by
  cases he : u.isEmpty
  · rfl
  · rw [(String.isEmpty_iff u).mp he] at h
    exact absurd h (by decide)

lemma nonempty_of_isHttpAbsolute (u : String) (h : isHttpAbsolute u = true) :
    u.isEmpty = false := by
  cases he : u.isEmpty
  · rfl
  · exfalso
    rw [(String.isEmpty_iff u).mp he] at h
    exact absurd h (by decide)

lemma resolveItemUrl_none (b : Option String) : resolveItemUrl none b = none := rfl

lemma resolveItemUrl_absolute (u : String) (b : Option String)
    (habs : isHttpAbsolute u = true) : resolveItemUrl (some u) b = some u := by
  have hne := nonempty_of_isHttpAbsolute u habs
  cases b with
  | none => simp [resolveItemUrl, jsTruthy, hne]
  | some bs => simp [resolveItemUrl, jsTruthy, hne, habs]

lemma resolveItemUrl_relative (u bs : String) (hu : u.isEmpty = false)
    (hb : bs.isEmpty = false) (habs : isHttpAbsolute u = false) :
    resolveItemUrl (some u) (some bs) = some (urlResolve u bs) := by
  have hupos : 0 < u.length := length_pos_of_ne_empty u (ne_empty_of_isEmpty_false u hu)
  have hru : (urlResolve u bs).isEmpty = false := by
    refine isEmpty_false_of_length_pos _ ?_
    simp only [urlResolve]
    split <;> simp only [String.length_append] <;> omega
  simp [resolveItemUrl, jsTruthy, hu, hb, habs, hru]

lemma resolveItemUrl_relative_nobase (u : String) (hu : u.isEmpty = false) :
    resolveItemUrl (some u) none = some u := by
  simp [resolveItemUrl, jsTruthy, hu]

/-- C4 (counterexample): an item whose URL is the empty string has a URL in
the sense of the claim and is relative, and a base URL is supplied, yet
breadcrumb synthesis emits no `item` key at all (rather than the empty URL
resolved against the base, which would be the base URL itself): the empty
string is falsy in JS, so both the resolution guard and the `item` spread
guard skip it. -/
theorem c4_counterexample_empty_url :
    (createBreadcrumbSchema [{ name := "Home", url := some "" }]
        (some "https://tufancalisir.de/")).itemListElement =
      [{ position := 1, name := "Home", item := none }] := by
  rfl

/-- C4 (amended): for the item at any position of the input list, the
output element at the same position satisfies: no URL, or an empty-string
URL, gives no `item` key; an absolute URL (starting with `http://` or
`https://`) passes through unchanged whether or not a base URL is supplied;
a non-empty relative URL is resolved against the base URL when a non-empty
base URL is supplied, and passes through unchanged when the base URL is
absent or empty (empty strings being falsy in JS, an empty URL counts as
absent and an empty base URL as not supplied). -/
theorem c4_breadcrumb_url_resolution (items : List BreadcrumbItem)
    (base : Option String) (i : Nat) (it : BreadcrumbItem)
    (hit : items[i]? = some it) :
    ∃ e, ((createBreadcrumbSchema items base).itemListElement)[i]? = some e ∧
      (it.url = none → e.item = none) ∧
      (it.url = some "" → e.item = none) ∧
      (∀ u, it.url = some u → isHttpAbsolute u = true → e.item = some u) ∧
      (∀ u b, it.url = some u → u.isEmpty = false → isHttpAbsolute u = false →
        base = some b → b.isEmpty = false → e.item = some (urlResolve u b)) ∧
      (∀ u, it.url = some u → u.isEmpty = false → base = none → e.item = some u) ∧
      (∀ u, it.url = some u → u.isEmpty = false → base = some "" → e.item = some u) := by
  refine ⟨mkBreadcrumbElem base i it, ?_, ?_, ?_, ?_, ?_, ?_, ?_⟩
  · show (breadcrumbElems base 0 items)[i]? = _
    rw [breadcrumbElems_getElem?, hit]
    simp
  · intro hu
    show resolveItemUrl it.url base = none
    rw [hu, resolveItemUrl_none]
  · intro hu
    show resolveItemUrl it.url base = none
    rw [hu, resolveItemUrl_empty_url, resolveItemUrl_none]
  · intro u hu habs
    show resolveItemUrl it.url base = some u
    rw [hu, resolveItemUrl_absolute u base habs]
  · intro u b hu hune habs hb hbne
    show resolveItemUrl it.url base = some (urlResolve u b)
    rw [hu, hb, resolveItemUrl_relative u b hune hbne habs]
  · intro u hu hune hb
    show resolveItemUrl it.url base = some u
    rw [hu, hb, resolveItemUrl_relative_nobase u hune]
  · intro u hu hune hb
    show resolveItemUrl it.url base = some u
    rw [hu, hb, resolveItemUrl_empty_base, resolveItemUrl_relative_nobase u hune]

/-- C4 (witness): the amended theorem applied to the single-item list
`[{name: "Blog", url: "/blog/"}]` with base `https://tufancalisir.de`. -/
theorem c4_breadcrumb_url_resolution_witness :
    ∃ e, ((createBreadcrumbSchema [{ name := "Blog", url := some "/blog/" }]
        (some "https://tufancalisir.de")).itemListElement)[0]? = some e ∧
      (({ name := "Blog", url := some "/blog/" } : BreadcrumbItem).url = none →
        e.item = none) ∧
      (({ name := "Blog", url := some "/blog/" } : BreadcrumbItem).url = some "" →
        e.item = none) ∧
      (∀ u, ({ name := "Blog", url := some "/blog/" } : BreadcrumbItem).url = some u →
        isHttpAbsolute u = true → e.item = some u) ∧
      (∀ u b, ({ name := "Blog", url := some "/blog/" } : BreadcrumbItem).url = some u →
        u.isEmpty = false → isHttpAbsolute u = false →
        (some "https://tufancalisir.de" : Option String) = some b → b.isEmpty = false →
        e.item = some (urlResolve u b)) ∧
      (∀ u, ({ name := "Blog", url := some "/blog/" } : BreadcrumbItem).url = some u →
        u.isEmpty = false → (some "https://tufancalisir.de" : Option String) = none →
        e.item = some u) ∧
      (∀ u, ({ name := "Blog", url := some "/blog/" } : BreadcrumbItem).url = some u →
        u.isEmpty = false → (some "https://tufancalisir.de" : Option String) = some "" →
        e.item = some u) := by
  exact c4_breadcrumb_url_resolution [{ name := "Blog", url := some "/blog/" }]
    (some "https://tufancalisir.de") 0 { name := "Blog", url := some "/blog/" } rfl

/-! ## C6 -/

/-- C6: feed generation yields one entry per published story, in story
order, with title the story's `name`, publication timestamp parsed from
`published_at`, summary the story content's `description`, and link
`/blog/{slug}/` — which is always non-empty. -/
theorem c6_feed_generation (stories : List Story) :
    (rssFeedItems stories).length = stories.length ∧
    (rssFeedItems stories).map (fun e => e.title) = stories.map (fun p => p.name) ∧
    (rssFeedItems stories).map (fun e => e.pubDate) =
      stories.map (fun p => jsNewDate p.published_at) ∧
    (rssFeedItems stories).map (fun e => e.description) =
      stories.map (fun p => p.content.description) ∧
    (rssFeedItems stories).map (fun e => e.link) =
      stories.map (fun p => "/blog/" ++ p.slug ++ "/") ∧
    (rssFeedItems stories).all (fun e => decide (0 < e.link.length)) = true := by
  refine ⟨?_, ?_, ?_, ?_, ?_, ?_⟩
  · simp [rssFeedItems]
  · simp [rssFeedItems]
  · simp [rssFeedItems]
  · simp [rssFeedItems]
  · simp [rssFeedItems]
  · simp only [rssFeedItems, List.all_eq_true, List.mem_map, decide_eq_true_eq]
    intro e he
    obtain ⟨p, _, rfl⟩ := he
    have h6 : "/blog/".length = 6 := rfl
    have h1 : "/".length = 1 := rfl
    simp only [String.length_append, h6, h1]
    omega

/-! ## C7 -/

/-- C7: the feed endpoint's story query carries version `published` (and
not `draft`) for every ambient build environment; by contrast the
build-mode version resolver `getStoryblokVersion` would have answered
`draft` in dev-server and staging environments, so the endpoint forces
published content instead of consulting the resolver. -/
theorem c7_rss_forces_published (env : ImportMetaEnv) :
    (rssStoriesQuery env).version = "published" ∧
    ((rssStoriesQuery env).version == "draft") = false ∧
    (rssStoriesQuery env).content_type = "blogPost" ∧
    getStoryblokVersion { DEV := true, MODE := "production" } = "draft" ∧
    getStoryblokVersion { DEV := false, MODE := "development" } = "draft" ∧
    getStoryblokVersion { DEV := false, MODE := "production" } = "published" := by
  exact ⟨rfl, rfl, rfl, rfl, rfl, rfl⟩

/-! ## C8 -/

/-- C8: supplying an optional field as the empty string (or, for `sameAs`,
the empty list; for a breadcrumb base URL or item URL, the empty string) is
indistinguishable from not supplying it: the constructors produce
deep-equal outputs, because JS truthiness tests drop falsy values before
assignment. -/
theorem c8_empty_optionals_omitted :
    (∀ d : PersonData, createPersonSchema { d with jobTitle := some "" } =
      createPersonSchema { d with jobTitle := none }) ∧
    (∀ d : PersonData, createPersonSchema { d with description := some "" } =
      createPersonSchema { d with description := none }) ∧
    (∀ d : PersonData, createPersonSchema { d with image := some "" } =
      createPersonSchema { d with image := none }) ∧
    (∀ d : PersonData, createPersonSchema { d with sameAs := some [] } =
      createPersonSchema { d with sameAs := none }) ∧
    (∀ d : WebsiteData, createWebsiteSchema { d with description := some "" } =
      createWebsiteSchema { d with description := none }) ∧
    (∀ d : WebsiteData, createWebsiteSchema { d with publisherName := some "" } =
      createWebsiteSchema { d with publisherName := none }) ∧
    (∀ d : WebsiteData, createWebsiteSchema { d with publisherUrl := some "" } =
      createWebsiteSchema { d with publisherUrl := none }) ∧
    (∀ d : BlogPostData, createBlogPostSchema { d with authorUrl := some "" } =
      createBlogPostSchema { d with authorUrl := none }) ∧
    (∀ d : BlogPostData, createBlogPostSchema { d with dateModified := some "" } =
      createBlogPostSchema { d with dateModified := none }) ∧
    (∀ d : BlogPostData, createBlogPostSchema { d with image := some "" } =
      createBlogPostSchema { d with image := none }) ∧
    (∀ d : BlogPostData, createBlogPostSchema { d with publisherName := some "" } =
      createBlogPostSchema { d with publisherName := none }) ∧
    (∀ d : BlogPostData, createBlogPostSchema { d with publisherUrl := some "" } =
      createBlogPostSchema { d with publisherUrl := none }) ∧
    (∀ pre post name b,
      createBreadcrumbSchema (pre ++ { name := name, url := some "" } :: post) b =
        createBreadcrumbSchema (pre ++ { name := name, url := none } :: post) b) ∧
    (∀ items, createBreadcrumbSchema items (some "") =
      createBreadcrumbSchema items none) := by
  refine ⟨?_, ?_, ?_, ?_, ?_, ?_, ?_, ?_, ?_, ?_, ?_, ?_, ?_, ?_⟩
  all_goals intros
  all_goals try
    simp only [createPersonSchema, createWebsiteSchema, createBlogPostSchema,
      keepTruthy_empty, keepTruthy_none, keepNonemptyList_nil, keepNonemptyList_none,
      mkPublisher_empty_name, mkPublisher_empty_url]
  case _ =>
    simp only [createBreadcrumbSchema, breadcrumbElems_append, breadcrumbElems,
      mkBreadcrumbElem, resolveItemUrl_empty_url]
  case _ =>
    simp only [createBreadcrumbSchema, breadcrumbElems_empty_base]

/-! ## C9 and C10: image derivation engine -/

lemma le_foldl_max (l : List Int) (a : Int) : a ≤ l.foldl max a := by
  induction l generalizing a with
  | nil => simp
  | cons x xs ih => exact le_trans (le_max_left a x) (ih (max a x))

lemma mem_le_foldl_max (l : List Int) (a w : Int) (hw : w ∈ l) : w ≤ l.foldl max a := by
  induction l generalizing a with
  | nil => cases hw
  | cons x xs ih =>
      rcases List.mem_cons.mp hw with h | h
      · subst h
        exact le_trans (le_max_right a w) (le_foldl_max xs (max a w))
      · exact ih (max a x) h

lemma foldl_max_mem (l : List Int) (a : Int) : l.foldl max a = a ∨ l.foldl max a ∈ l := by
  induction l generalizing a with
  | nil => left; rfl
  | cons x xs ih =>
      rcases ih (max a x) with h | h
      · rcases max_choice a x with hm | hm
        · left
          rw [List.foldl_cons, h, hm]
        · right
          rw [List.foldl_cons, h, hm]
          exact List.mem_cons_self x xs
      · right
        exact List.mem_cons_of_mem x h

@[simp] lemma exceptBind_ok {ε α β : Type} (a : α) (k : α → Except ε β) :
    (Except.ok a : Except ε α) >>= k = k a := rfl

@[simp] lemma exceptBind_error {ε α β : Type} (e : ε) (k : α → Except ε β) :
    (Except.error e : Except ε α) >>= k = Except.error e := rfl

lemma exceptMapM_loop {α β ε : Type} (f : α → Except ε β) (g : α → β) :
    ∀ (l : List α) (acc : List β), (∀ x ∈ l, f x = .ok (g x)) →
    List.mapM.loop f l acc = .ok (acc.reverse ++ l.map g) := by
  intro l
  induction l with
  | nil =>
      intro acc _
      simp [List.mapM.loop]
      rfl
  | cons x xs ih =>
      intro acc h
      have hx := h x (List.mem_cons_self x xs)
      simp only [List.mapM.loop, hx, exceptBind_ok]
      rw [ih (g x :: acc) (fun y hy => h y (List.mem_cons_of_mem x hy))]
      simp

lemma exceptMapM_ok {α β ε : Type} (f : α → Except ε β) (g : α → β) (l : List α)
    (h : ∀ x ∈ l, f x = .ok (g x)) : l.mapM f = .ok (l.map g) := by
  have : l.mapM f = List.mapM.loop f l [] := rfl
  rw [this, exceptMapM_loop f g l [] h]
  rfl

/-- The URL produced by the single-image transform for breakpoint `w` on an
absolute asset URL. -/
lemma optimize_ok (filename : String) (opts : ImageTransformOptions)
    (habs : isHttpAbsolute filename = true) :
    optimizeStoryblokImage filename opts =
      .ok (filename ++ "/m" ++ geometrySegment opts.width opts.height
        ++ filtersSegment opts.format opts.quality) := by
  simp [optimizeStoryblokImage, habs]

/-- C9: for an ascending, duplicate-free, positive breakpoint list and a
positive aspect ratio, the responsive descriptor build succeeds; its
candidate widths equal the breakpoints exactly and in order; every
candidate URL is the single-image transform applied at that width with
derived height `round(width / aspectRatio)`; the size hints pass through;
and the primary URL is the single-image transform applied with the largest
breakpoint. -/
theorem c9_responsive_descriptor (filename : String) (bps : List Int) (r : ℚ)
    (sz : String) (hasc : List.Chain' (· < ·) bps) (hne : bps ≠ [])
    (hpos : ∀ w ∈ bps, 0 < w) (hr : 0 < r) (habs : isHttpAbsolute filename = true) :
    ∃ d, generateResponsiveImageData filename
        { breakpoints := bps, aspectRatio := r, sizes := sz } = .ok d ∧
      d.candidates.map (fun c => c.width) = bps ∧
      (∀ c ∈ d.candidates,
        optimizeStoryblokImage filename (candidateOptions c.width r) = .ok c.url) ∧
      (∀ w : Int, (candidateOptions w r).height = some (round ((w : ℚ) / r))) ∧
      d.sizeHints = sz ∧
      (∃ wmax ∈ bps, (∀ w ∈ bps, w ≤ wmax) ∧
        optimizeStoryblokImage filename (candidateOptions wmax r) = .ok d.primaryUrl) := by
  have hnodup : bps.Nodup := by
    have hp : bps.Pairwise (· < ·) := (List.chain'_iff_pairwise).mp hasc
    exact hp.imp (fun hlt => ne_of_lt hlt)
  have hany : bps.any (fun w => w ≤ 0) = false := by
    cases ha : bps.any (fun w => w ≤ 0)
    · rfl
    · exfalso
      obtain ⟨w, hw, hw0⟩ := List.any_eq_true.mp ha
      exact absurd (hpos w hw) (by simpa using hw0)
  have hcond : ¬ (bps = [] ∨ bps.any (fun w => w ≤ 0) = true ∨ ¬ bps.Nodup ∨ r ≤ 0) := by
    push_neg
    refine ⟨hne, ?_, hnodup, hr⟩
    simp [hany]
  have htrans : ∀ w : Int, optimizeStoryblokImage filename (candidateOptions w r) =
      .ok (filename ++ "/m" ++ geometrySegment (some w) (some (derivedHeight w r))
        ++ filtersSegment (some "webp") none) := by
    intro w
    rw [optimize_ok filename _ habs]
    rfl
  have hmapM : bps.mapM (fun w => do
        let u ← optimizeStoryblokImage filename (candidateOptions w r)
        pure { url := u, width := w : ImageCandidate }) =
      .ok (bps.map (fun w =>
        { url := filename ++ "/m" ++ geometrySegment (some w) (some (derivedHeight w r))
            ++ filtersSegment (some "webp") none
          width := w : ImageCandidate })) := by
    refine exceptMapM_ok _ _ _ ?_
    intro w _
    simp [htrans w, Except.bind]
  have hres : generateResponsiveImageData filename
      { breakpoints := bps, aspectRatio := r, sizes := sz } =
      .ok { primaryUrl := filename ++ "/m"
              ++ geometrySegment (some (bps.foldl max 0))
                  (some (derivedHeight (bps.foldl max 0) r))
              ++ filtersSegment (some "webp") none
            candidates := bps.map (fun w =>
              { url := filename ++ "/m"
                  ++ geometrySegment (some w) (some (derivedHeight w r))
                  ++ filtersSegment (some "webp") none
                width := w })
            sizeHints := sz } := by
    rw [generateResponsiveImageData, if_neg hcond]
    rw [hmapM]
    simp [Except.bind, htrans (bps.foldl max 0)]
  refine ⟨_, hres, ?_, ?_, ?_, rfl, ?_⟩
  · rw [List.map_map]
    have hcomp : ((fun c : ImageCandidate => c.width) ∘ (fun w : Int =>
        ({ url := filename ++ "/m" ++ geometrySegment (some w) (some (derivedHeight w r))
            ++ filtersSegment (some "webp") none, width := w } : ImageCandidate))) =
        fun w => w := rfl
    rw [hcomp]
    exact List.map_id' bps
  · intro c hc
    obtain ⟨w, _, rfl⟩ := List.mem_map.mp hc
    exact htrans w
  · intro w
    rfl
  · rcases foldl_max_mem bps 0 with h0 | hmem
    · exfalso
      obtain ⟨w0, hw0⟩ := List.exists_mem_of_ne_nil bps hne
      have hle := mem_le_foldl_max bps 0 w0 hw0
      rw [h0] at hle
      exact absurd (hpos w0 hw0) (not_lt.mpr hle)
    · exact ⟨bps.foldl max 0, hmem, fun w hw => mem_le_foldl_max bps 0 w hw, htrans _⟩

/-- C9 (witness): the responsive descriptor build at breakpoints
`[240, 320]`, aspect ratio `3/2` and a concrete asset URL. -/
theorem c9_responsive_descriptor_witness :
    ∃ d, generateResponsiveImageData "https://a.storyblok.com/f/1/img.jpg"
        { breakpoints := [240, 320], aspectRatio := 3 / 2, sizes := "100vw" } = .ok d ∧
      d.candidates.map (fun c => c.width) = [240, 320] ∧
      (∀ c ∈ d.candidates,
        optimizeStoryblokImage "https://a.storyblok.com/f/1/img.jpg"
          (candidateOptions c.width (3 / 2)) = .ok c.url) ∧
      (∀ w : Int, (candidateOptions w (3 / 2)).height =
        some (round ((w : ℚ) / (3 / 2)))) ∧
      d.sizeHints = "100vw" ∧
      (∃ wmax ∈ [(240 : Int), 320], (∀ w ∈ [(240 : Int), 320], w ≤ wmax) ∧
        optimizeStoryblokImage "https://a.storyblok.com/f/1/img.jpg"
          (candidateOptions wmax (3 / 2)) = .ok d.primaryUrl) := by
  exact c9_responsive_descriptor "https://a.storyblok.com/f/1/img.jpg" [240, 320]
    (3 / 2) "100vw" (by norm_num [List.chain'_cons]) (by simp)
    (by norm_num) (by norm_num) (by decide)

lemma optimize_err (filename : String) (opts : ImageTransformOptions)
    (habs : isHttpAbsolute filename = false) :
    optimizeStoryblokImage filename opts =
      .error (.validationError "asset URL must be absolute") := by
  simp [optimizeStoryblokImage, habs]

/-- C10: the single-image transform fails with a `ValidationError` exactly
when its input URL is not absolute, and the responsive descriptor build
fails with a `ConfigurationError` exactly when the breakpoint list is empty
or contains a non-positive value or a duplicate, or the aspect ratio is not
positive — in particular neither function silently patches such an input
into a result. -/
theorem c10_error_conditions :
    (∀ filename opts, (optimizeStoryblokImage filename opts =
        .error (.validationError "asset URL must be absolute")) ↔
      isHttpAbsolute filename = false) ∧
    (∀ filename o, (generateResponsiveImageData filename o =
        .error (.configurationError "invalid breakpoints or aspect ratio")) ↔
      (o.breakpoints = [] ∨ (∃ w ∈ o.breakpoints, w ≤ 0) ∨
        ¬ o.breakpoints.Nodup ∨ o.aspectRatio ≤ 0)) := by
  constructor
  · intro filename opts
    constructor
    · intro h
      cases habs : isHttpAbsolute filename
      · rfl
      · rw [optimize_ok filename opts habs] at h
        exact Except.noConfusion h
    · intro habs
      exact optimize_err filename opts habs
  · intro filename o
    constructor
    · intro h
      by_cases hcond : (o.breakpoints = [] ∨ o.breakpoints.any (fun w => w ≤ 0) = true ∨
          ¬ o.breakpoints.Nodup ∨ o.aspectRatio ≤ 0)
      · rcases hcond with h1 | h2 | h3 | h4
        · exact Or.inl h1
        · refine Or.inr (Or.inl ?_)
          simpa using h2
        · exact Or.inr (Or.inr (Or.inl h3))
        · exact Or.inr (Or.inr (Or.inr h4))
      · exfalso
        rw [generateResponsiveImageData, if_neg hcond] at h
        cases habs : isHttpAbsolute filename
        · push_neg at hcond
          obtain ⟨hne, -, -, -⟩ := hcond
          obtain ⟨b, rest, hbp⟩ := List.exists_cons_of_ne_nil hne
          rw [hbp] at h
          have hb : optimizeStoryblokImage filename (candidateOptions b o.aspectRatio) =
              .error (.validationError "asset URL must be absolute") :=
            optimize_err filename _ habs
          have hloop : (b :: rest).mapM (fun w => do
              let u ← optimizeStoryblokImage filename (candidateOptions w o.aspectRatio)
              pure { url := u, width := w : ImageCandidate }) =
              .error (.validationError "asset URL must be absolute") := by
            show List.mapM.loop _ (b :: rest) [] = _
            simp only [List.mapM.loop, hb, exceptBind_error]
          rw [hloop] at h
          simp only [exceptBind_error] at h
          exact ImageError.noConfusion (Except.error.inj h)
        · have htrans : ∀ w : Int,
              optimizeStoryblokImage filename (candidateOptions w o.aspectRatio) =
              .ok (filename ++ "/m"
                ++ geometrySegment (some w) (some (derivedHeight w o.aspectRatio))
                ++ filtersSegment (some "webp") none) := by
            intro w
            rw [optimize_ok filename _ habs]
            rfl
          have hmapM : o.breakpoints.mapM (fun w => do
                let u ← optimizeStoryblokImage filename (candidateOptions w o.aspectRatio)
                pure { url := u, width := w : ImageCandidate }) =
              .ok (o.breakpoints.map (fun w =>
                { url := filename ++ "/m"
                    ++ geometrySegment (some w) (some (derivedHeight w o.aspectRatio))
                    ++ filtersSegment (some "webp") none
                  width := w : ImageCandidate })) := by
            refine exceptMapM_ok _ _ _ ?_
            intro w _
            simp [htrans w]
          rw [hmapM] at h
          simp only [exceptBind_ok, htrans (o.breakpoints.foldl max 0)] at h
          exact Except.noConfusion h
    · intro hrhs
      have hcond : (o.breakpoints = [] ∨ o.breakpoints.any (fun w => w ≤ 0) = true ∨
          ¬ o.breakpoints.Nodup ∨ o.aspectRatio ≤ 0) := by
        rcases hrhs with h1 | h2 | h3 | h4
        · exact Or.inl h1
        · refine Or.inr (Or.inl ?_)
          simpa using h2
        · exact Or.inr (Or.inr (Or.inl h3))
        · exact Or.inr (Or.inr (Or.inr h4))
      rw [generateResponsiveImageData, if_pos hcond]

/-- C10 (witness): a relative asset URL makes the single-image transform
fail with a `ValidationError`, and an empty breakpoint list makes the
responsive build fail with a `ConfigurationError`. -/
theorem c10_error_conditions_witness :
    optimizeStoryblokImage "relative/img.jpg"
        { width := none, height := none, quality := none, format := none } =
      .error (.validationError "asset URL must be absolute") ∧
    generateResponsiveImageData "https://a.storyblok.com/f/1/img.jpg"
        { breakpoints := [], aspectRatio := 1, sizes := "100vw" } =
      .error (.configurationError "invalid breakpoints or aspect ratio") := by
  constructor
  · exact (c10_error_conditions.1 "relative/img.jpg"
      { width := none, height := none, quality := none, format := none }).mpr (by decide)
  · exact (c10_error_conditions.2 "https://a.storyblok.com/f/1/img.jpg"
      { breakpoints := [], aspectRatio := 1, sizes := "100vw" }).mpr (Or.inl rfl)

/-! ## C5: digit rendering and parsing lemmas -/

@[simp] lemma optBind_some {α β : Type} (a : α) (k : α → Option β) :
    (some a >>= k) = k a := rfl

@[simp] lemma optBind_none {α β : Type} (k : α → Option β) :
    ((none : Option α) >>= k) = none := rfl

lemma digitChar_isDigit : ∀ n < 10, (digitChar n).isDigit = true := by decide

lemma digitChar_toNat : ∀ n < 10, (digitChar n).toNat = 48 + n := by decide

lemma fromHex_hexDigitChar : ∀ n < 16, fromHexChar (hexDigitChar n) = some n := by decide

lemma natToDigits_ne_nil (n : Nat) : natToDigits n ≠ [] := by
  rw [natToDigits]
  split
  · simp
  · simp

lemma natToDigits_all_digits (n : Nat) : ∀ c ∈ natToDigits n, c.isDigit = true := by
  induction n using Nat.strong_induction_on with
  | _ n ih =>
      rw [natToDigits]
      split
      case isTrue h =>
        intro c hc
        rw [List.mem_singleton] at hc
        subst hc
        exact digitChar_isDigit n h
      case isFalse h =>
        intro c hc
        rcases List.mem_append.mp hc with h1 | h1
        · exact ih (n / 10) (Nat.div_lt_self (by omega) (by omega)) c h1
        · rw [List.mem_singleton] at h1
          subst h1
          exact digitChar_isDigit (n % 10) (Nat.mod_lt n (by omega))

lemma natToDigits_head_digit (n : Nat) :
    ∃ c cs, natToDigits n = c :: cs ∧ c.isDigit = true := by
  cases hnd : natToDigits n with
  | nil => exact absurd hnd (natToDigits_ne_nil n)
  | cons c cs =>
      refine ⟨c, cs, rfl, ?_⟩
      refine natToDigits_all_digits n c ?_
      rw [hnd]
      exact List.mem_cons_self c cs

lemma digitsToNat_append (ds : List Char) (c : Char) :
    digitsToNat (ds ++ [c]) = 10 * digitsToNat ds + (c.toNat - 48) := by
  simp only [digitsToNat, List.foldl_append, List.foldl_cons, List.foldl_nil]
  omega

lemma digitsToNat_natToDigits (n : Nat) : digitsToNat (natToDigits n) = n := by
  induction n using Nat.strong_induction_on with
  | _ n ih =>
      rw [natToDigits]
      split
      case isTrue h =>
        simp only [digitsToNat, List.foldl_cons, List.foldl_nil]
        rw [digitChar_toNat n h]
        omega
      case isFalse h =>
        rw [digitsToNat_append, ih (n / 10) (Nat.div_lt_self (by omega) (by omega)),
          digitChar_toNat (n % 10) (Nat.mod_lt n (by omega))]
        omega

lemma takeDigits_append (ds rest : List Char)
    (hds : ∀ c ∈ ds, c.isDigit = true)
    (hrest : ∀ c, rest.head? = some c → c.isDigit = false) :
    takeDigits (ds ++ rest) = (ds, rest) := by
  induction ds with
  | nil =>
      cases rest with
      | nil => rfl
      | cons c r =>
          have hc := hrest c rfl
          simp [takeDigits, hc]
  | cons c ds ih =>
      have hc := hds c (List.mem_cons_self _ _)
      simp [takeDigits, hc, ih (fun x hx => hds x (List.mem_cons_of_mem c hx))]

/-! ## C5: string escaping round trip -/

lemma parseStr_close (L : List Char) : parseStrChars ('"' :: L) = some ([], L) := by
  rw [parseStrChars.eq_def]
  rfl

lemma parseStr_esc_quote (L : List Char) : parseStrChars ('\\' :: '"' :: L) =
    (parseStrChars L).map (fun p => ('"' :: p.1, p.2)) := by
  rw [parseStrChars.eq_def]
  rfl

lemma parseStr_esc_backslash (L : List Char) : parseStrChars ('\\' :: '\\' :: L) =
    (parseStrChars L).map (fun p => ('\\' :: p.1, p.2)) := by
  rw [parseStrChars.eq_def]
  rfl

lemma parseStr_esc_n (L : List Char) : parseStrChars ('\\' :: 'n' :: L) =
    (parseStrChars L).map (fun p => ('\n' :: p.1, p.2)) := by
  rw [parseStrChars.eq_def]
  rfl

lemma parseStr_esc_r (L : List Char) : parseStrChars ('\\' :: 'r' :: L) =
    (parseStrChars L).map (fun p => ('\r' :: p.1, p.2)) := by
  rw [parseStrChars.eq_def]
  rfl

lemma parseStr_esc_t (L : List Char) : parseStrChars ('\\' :: 't' :: L) =
    (parseStrChars L).map (fun p => ('\t' :: p.1, p.2)) := by
  rw [parseStrChars.eq_def]
  rfl

lemma parseStr_esc_b (L : List Char) : parseStrChars ('\\' :: 'b' :: L) =
    (parseStrChars L).map (fun p => ('\x08' :: p.1, p.2)) := by
  rw [parseStrChars.eq_def]
  rfl

lemma parseStr_esc_f (L : List Char) : parseStrChars ('\\' :: 'f' :: L) =
    (parseStrChars L).map (fun p => ('\x0c' :: p.1, p.2)) := by
  rw [parseStrChars.eq_def]
  rfl

lemma parseStr_esc_u (a b c d : Char) (da db dc dd : Nat) (L : List Char)
    (ha : fromHexChar a = some da) (hb : fromHexChar b = some db)
    (hc : fromHexChar c = some dc) (hd : fromHexChar d = some dd) :
    parseStrChars ('\\' :: 'u' :: a :: b :: c :: d :: L) =
      (parseStrChars L).map
        (fun p => (Char.ofNat (((da * 16 + db) * 16 + dc) * 16 + dd) :: p.1, p.2)) := by
  rw [parseStrChars.eq_def]
  show (if ('u' : Char) = '"' then (parseStrChars (a :: b :: c :: d :: L)).map
        (fun p => ('"' :: p.1, p.2))
      else if ('u' : Char) = '\\' then (parseStrChars (a :: b :: c :: d :: L)).map
        (fun p => ('\\' :: p.1, p.2))
      else if ('u' : Char) = '/' then (parseStrChars (a :: b :: c :: d :: L)).map
        (fun p => ('/' :: p.1, p.2))
      else if ('u' : Char) = 'n' then (parseStrChars (a :: b :: c :: d :: L)).map
        (fun p => ('\n' :: p.1, p.2))
      else if ('u' : Char) = 'r' then (parseStrChars (a :: b :: c :: d :: L)).map
        (fun p => ('\r' :: p.1, p.2))
      else if ('u' : Char) = 't' then (parseStrChars (a :: b :: c :: d :: L)).map
        (fun p => ('\t' :: p.1, p.2))
      else if ('u' : Char) = 'b' then (parseStrChars (a :: b :: c :: d :: L)).map
        (fun p => ('\x08' :: p.1, p.2))
      else if ('u' : Char) = 'f' then (parseStrChars (a :: b :: c :: d :: L)).map
        (fun p => ('\x0c' :: p.1, p.2))
      else if ('u' : Char) = 'u' then
        match fromHexChar a, fromHexChar b, fromHexChar c, fromHexChar d with
        | some d1, some d2, some d3, some d4 =>
            (parseStrChars L).map
              (fun p => (Char.ofNat (((d1 * 16 + d2) * 16 + d3) * 16 + d4) :: p.1, p.2))
        | _, _, _, _ => none
      else none) = _
  rw [ha, hb, hc, hd]
  rfl

lemma parseStr_plain (c : Char) (L : List Char) (h1 : c ≠ '"') (h2 : c ≠ '\\') :
    parseStrChars (c :: L) = (parseStrChars L).map (fun p => (c :: p.1, p.2)) := by
  rw [parseStrChars.eq_def]
  show (if c = '"' then some ([], L)
      else if c = '\\' then
        match L with
        | [] => none
        | e :: rest2 =>
          if e = '"' then (parseStrChars rest2).map (fun p => ('"' :: p.1, p.2))
          else if e = '\\' then (parseStrChars rest2).map (fun p => ('\\' :: p.1, p.2))
          else if e = '/' then (parseStrChars rest2).map (fun p => ('/' :: p.1, p.2))
          else if e = 'n' then (parseStrChars rest2).map (fun p => ('\n' :: p.1, p.2))
          else if e = 'r' then (parseStrChars rest2).map (fun p => ('\r' :: p.1, p.2))
          else if e = 't' then (parseStrChars rest2).map (fun p => ('\t' :: p.1, p.2))
          else if e = 'b' then (parseStrChars rest2).map (fun p => ('\x08' :: p.1, p.2))
          else if e = 'f' then (parseStrChars rest2).map (fun p => ('\x0c' :: p.1, p.2))
          else if e = 'u' then
            match rest2 with
            | h1 :: h2 :: h3 :: h4 :: rest3 =>
              match fromHexChar h1, fromHexChar h2, fromHexChar h3, fromHexChar h4 with
              | some d1, some d2, some d3, some d4 =>
                  (parseStrChars rest3).map
                    (fun p => (Char.ofNat (((d1 * 16 + d2) * 16 + d3) * 16 + d4) :: p.1, p.2))
              | _, _, _, _ => none
            | _ => none
          else none
      else (parseStrChars L).map (fun p => (c :: p.1, p.2))) = _
  rw [if_neg h1, if_neg h2]

lemma parseStrChars_escape (l : List Char) (rest : List Char) :
    parseStrChars ((l.map escapeChar).flatten ++ '"' :: rest) = some (l, rest) := by
  induction l with
  | nil =>
      simp only [List.map_nil, List.flatten_nil, List.nil_append]
      exact parseStr_close rest
  | cons c cs ih =>
      simp only [List.map_cons, List.flatten_cons, List.append_assoc]
      by_cases h1 : c = '"'
      · subst h1
        show parseStrChars ('\\' :: '"' :: ((cs.map escapeChar).flatten ++ '"' :: rest)) = _
        rw [parseStr_esc_quote, ih]
        rfl
      by_cases h2 : c = '\\'
      · subst h2
        show parseStrChars ('\\' :: '\\' :: ((cs.map escapeChar).flatten ++ '"' :: rest)) = _
        rw [parseStr_esc_backslash, ih]
        rfl
      by_cases h3 : c = '\n'
      · subst h3
        show parseStrChars ('\\' :: 'n' :: ((cs.map escapeChar).flatten ++ '"' :: rest)) = _
        rw [parseStr_esc_n, ih]
        rfl
      by_cases h4 : c = '\r'
      · subst h4
        show parseStrChars ('\\' :: 'r' :: ((cs.map escapeChar).flatten ++ '"' :: rest)) = _
        rw [parseStr_esc_r, ih]
        rfl
      by_cases h5 : c = '\t'
      · subst h5
        show parseStrChars ('\\' :: 't' :: ((cs.map escapeChar).flatten ++ '"' :: rest)) = _
        rw [parseStr_esc_t, ih]
        rfl
      by_cases h6 : c = '\x08'
      · subst h6
        show parseStrChars ('\\' :: 'b' :: ((cs.map escapeChar).flatten ++ '"' :: rest)) = _
        rw [parseStr_esc_b, ih]
        rfl
      by_cases h7 : c = '\x0c'
      · subst h7
        show parseStrChars ('\\' :: 'f' :: ((cs.map escapeChar).flatten ++ '"' :: rest)) = _
        rw [parseStr_esc_f, ih]
        rfl
      by_cases h8 : c.toNat < 32
      · have hesc : escapeChar c =
            ['\\', 'u', '0', '0', hexDigitChar (c.toNat / 16), hexDigitChar (c.toNat % 16)] := by
          simp [escapeChar, h1, h2, h3, h4, h5, h6, h7, h8]
        rw [hesc]
        show parseStrChars ('\\' :: 'u' :: '0' :: '0' :: hexDigitChar (c.toNat / 16) ::
          hexDigitChar (c.toNat % 16) :: ((cs.map escapeChar).flatten ++ '"' :: rest)) = _
        rw [parseStr_esc_u '0' '0' (hexDigitChar (c.toNat / 16)) (hexDigitChar (c.toNat % 16))
          0 0 (c.toNat / 16) (c.toNat % 16) _ rfl rfl
          (fromHex_hexDigitChar _ (by omega)) (fromHex_hexDigitChar _ (by omega)), ih]
        have hval : ((0 * 16 + 0) * 16 + c.toNat / 16) * 16 + c.toNat % 16 = c.toNat := by
          omega
        simp only [hval, Char.ofNat_toNat]
        rfl
      · have hesc : escapeChar c = [c] := by
          simp [escapeChar, h1, h2, h3, h4, h5, h6, h7, h8]
        rw [hesc]
        show parseStrChars (c :: ((cs.map escapeChar).flatten ++ '"' :: rest)) = _
        rw [parseStr_plain c _ h1 h2, ih]
        rfl

/-! ## C5: equation lemmas for the mutually recursive renderers and parsers -/

lemma renderVal_str (s : String) : renderVal (.str s) = renderStringChars s := by
  rw [renderVal.eq_def]

lemma renderVal_num (n : Nat) : renderVal (.num n) = natToDigits n := by
  rw [renderVal.eq_def]

lemma renderVal_arr (l : List Json) :
    renderVal (.arr l) = '[' :: (renderArrItems l ++ [']']) := by
  rw [renderVal.eq_def]

lemma renderVal_obj (m : List (String × Json)) :
    renderVal (.obj m) = '\x7b' :: (renderObjItems m ++ ['\x7d']) := by
  rw [renderVal.eq_def]

lemma renderArrItems_nil : renderArrItems [] = [] := by
  rw [renderArrItems.eq_def]

lemma renderArrItems_cons (v : Json) (rest : List Json) :
    renderArrItems (v :: rest) = renderVal v ++ renderArrTail rest := by
  rw [renderArrItems.eq_def]

lemma renderArrTail_nil : renderArrTail [] = [] := by
  rw [renderArrTail.eq_def]

lemma renderArrTail_cons (v : Json) (rest : List Json) :
    renderArrTail (v :: rest) = ',' :: (renderVal v ++ renderArrTail rest) := by
  rw [renderArrTail.eq_def]

lemma renderObjItems_nil : renderObjItems [] = [] := by
  rw [renderObjItems.eq_def]

lemma renderObjItems_cons (k : String) (v : Json) (rest : List (String × Json)) :
    renderObjItems ((k, v) :: rest) =
      renderStringChars k ++ (':' :: renderVal v ++ renderObjTail rest) := by
  rw [renderObjItems.eq_def]

lemma renderObjTail_nil : renderObjTail [] = [] := by
  rw [renderObjTail.eq_def]

lemma renderObjTail_cons (k : String) (v : Json) (rest : List (String × Json)) :
    renderObjTail ((k, v) :: rest) =
      ',' :: (renderStringChars k ++ (':' :: renderVal v ++ renderObjTail rest)) := by
  rw [renderObjTail.eq_def]

lemma needJ_str (s : String) : needJ (.str s) = 1 := by
  rw [needJ.eq_def]

lemma needJ_num (n : Nat) : needJ (.num n) = 1 := by
  rw [needJ.eq_def]

lemma needJ_arr (l : List Json) : needJ (.arr l) = 1 + needA l := by
  rw [needJ.eq_def]

lemma needJ_obj (m : List (String × Json)) : needJ (.obj m) = 1 + needO m := by
  rw [needJ.eq_def]

lemma needA_nil : needA [] = 1 := by
  rw [needA.eq_def]

lemma needA_cons (v : Json) (rest : List Json) :
    needA (v :: rest) = 1 + max (needJ v) (needA rest) := by
  rw [needA.eq_def]

lemma needO_nil : needO [] = 1 := by
  rw [needO.eq_def]

lemma needO_cons (k : String) (v : Json) (rest : List (String × Json)) :
    needO ((k, v) :: rest) = 1 + max (needJ v) (needO rest) := by
  rw [needO.eq_def]

lemma needJ_pos (j : Json) : 1 ≤ needJ j := by
  cases j with
  | str s => rw [needJ_str]
  | num n => rw [needJ_num]
  | arr l => rw [needJ_arr]; omega
  | obj m => rw [needJ_obj]; omega

lemma needA_pos (l : List Json) : 1 ≤ needA l := by
  cases l with
  | nil => rw [needA_nil]
  | cons v rest => rw [needA_cons]; omega

lemma needO_pos (m : List (String × Json)) : 1 ≤ needO m := by
  cases m with
  | nil => rw [needO_nil]
  | cons kv rest =>
      obtain ⟨k, v⟩ := kv
      rw [needO_cons]
      omega

lemma parseVal_quote (f : Nat) (L : List Char) :
    parseVal (f + 1) ('"' :: L) =
      (parseStrChars L).map (fun p => (.str (String.mk p.1), p.2)) := by
  rw [parseVal.eq_def]
  rfl

lemma parseVal_lbracket (f : Nat) (L : List Char) :
    parseVal (f + 1) ('[' :: L) = parseArrBody f L := by
  rw [parseVal.eq_def]
  rfl

lemma parseVal_lbrace (f : Nat) (L : List Char) :
    parseVal (f + 1) ('\x7b' :: L) = parseObjBody f L := by
  rw [parseVal.eq_def]
  rfl

lemma parseVal_digit (f : Nat) (c : Char) (L : List Char)
    (h1 : c ≠ '"') (h2 : c ≠ '[') (h3 : c ≠ '\x7b') (hd : c.isDigit = true) :
    parseVal (f + 1) (c :: L) =
      some (.num (digitsToNat (takeDigits (c :: L)).1), (takeDigits (c :: L)).2) := by
  rw [parseVal.eq_def]
  show (if c = '"' then (parseStrChars L).map (fun p => (Json.str (String.mk p.1), p.2))
      else if c = '[' then parseArrBody f L
      else if c = '\x7b' then parseObjBody f L
      else if c.isDigit then
        let p := takeDigits (c :: L)
        some (.num (digitsToNat p.1), p.2)
      else none) = _
  rw [if_neg h1, if_neg h2, if_neg h3, if_pos hd]

lemma parseArrBody_close (f : Nat) (L : List Char) :
    parseArrBody (f + 1) (']' :: L) = some (.arr [], L) := by
  rw [parseArrBody.eq_def]
  rfl

lemma parseArrBody_cons (f : Nat) (c : Char) (L : List Char) (h : c ≠ ']') :
    parseArrBody (f + 1) (c :: L) = (do
      let (v, r1) ← parseVal f (c :: L)
      let (vs, r2) ← parseArrTail f r1
      pure (.arr (v :: vs), r2)) := by
  rw [parseArrBody.eq_def]
  show (if c = ']' then some (Json.arr [], L) else do
      let (v, r1) ← parseVal f (c :: L)
      let (vs, r2) ← parseArrTail f r1
      pure (Json.arr (v :: vs), r2)) = _
  rw [if_neg h]

lemma parseArrTail_close (f : Nat) (L : List Char) :
    parseArrTail (f + 1) (']' :: L) = some ([], L) := by
  rw [parseArrTail.eq_def]
  rfl

lemma parseArrTail_comma (f : Nat) (L : List Char) :
    parseArrTail (f + 1) (',' :: L) = (do
      let (v, r1) ← parseVal f L
      let (vs, r2) ← parseArrTail f r1
      pure (v :: vs, r2)) := by
  rw [parseArrTail.eq_def]
  rfl

lemma parseObjBody_close (f : Nat) (L : List Char) :
    parseObjBody (f + 1) ('\x7d' :: L) = some (.obj [], L) := by
  rw [parseObjBody.eq_def]
  rfl

lemma parseObjBody_member (f : Nat) (L : List Char) :
    parseObjBody (f + 1) ('"' :: L) = (do
      let (k, r1) ← parseStrChars L
      match r1 with
      | ':' :: r2 => do
        let (v, r3) ← parseVal f r2
        let (ms, r4) ← parseObjTail f r3
        pure (.obj ((String.mk k, v) :: ms), r4)
      | _ => none) := by
  rw [parseObjBody.eq_def]
  rfl

lemma parseObjTail_close (f : Nat) (L : List Char) :
    parseObjTail (f + 1) ('\x7d' :: L) = some ([], L) := by
  rw [parseObjTail.eq_def]
  rfl

lemma parseObjTail_comma (f : Nat) (L : List Char) :
    parseObjTail (f + 1) (',' :: '"' :: L) = (do
      let (k, r1) ← parseStrChars L
      match r1 with
      | ':' :: r2 => do
        let (v, r3) ← parseVal f r2
        let (ms, r4) ← parseObjTail f r3
        pure ((String.mk k, v) :: ms, r4)
      | _ => none) := by
  rw [parseObjTail.eq_def]
  rfl

/-! ## C5: head characters and digit guards -/

lemma renderVal_head (j : Json) : ∃ c cs, renderVal j = c :: cs ∧
    (c = '"' ∨ c = '[' ∨ c = '\x7b' ∨ c.isDigit = true) := by
  cases j with
  | str s =>
      exact ⟨'"', escapeString s ++ ['"'], by rw [renderVal_str]; rfl, Or.inl rfl⟩
  | num n =>
      obtain ⟨c, cs, h, hd⟩ := natToDigits_head_digit n
      exact ⟨c, cs, by rw [renderVal_num, h], Or.inr (Or.inr (Or.inr hd))⟩
  | arr l =>
      exact ⟨'[', renderArrItems l ++ [']'], by rw [renderVal_arr], Or.inr (Or.inl rfl)⟩
  | obj m =>
      exact ⟨'\x7b', renderObjItems m ++ ['\x7d'], by rw [renderVal_obj],
        Or.inr (Or.inr (Or.inl rfl))⟩

lemma noDigit_head (d : Char) (hd : d.isDigit = false) (L : List Char) :
    ∀ c, ((d :: L).head? = some c) → c.isDigit = false := by
  intro c hc
  rw [List.head?_cons, Option.some.injEq] at hc
  rw [← hc]
  exact hd

lemma noDigit_arrTail (xs : List Json) (rest : List Char) :
    ∀ c, ((renderArrTail xs ++ ']' :: rest).head? = some c) → c.isDigit = false := by
  cases xs with
  | nil =>
      rw [renderArrTail_nil, List.nil_append]
      exact noDigit_head ']' (by decide) rest
  | cons y ys =>
      rw [renderArrTail_cons, List.cons_append]
      exact noDigit_head ',' (by decide) _

lemma noDigit_objTail (xs : List (String × Json)) (rest : List Char) :
    ∀ c, ((renderObjTail xs ++ '\x7d' :: rest).head? = some c) → c.isDigit = false := by
  cases xs with
  | nil =>
      rw [renderObjTail_nil, List.nil_append]
      exact noDigit_head '\x7d' (by decide) rest
  | cons kv ys =>
      obtain ⟨k, v⟩ := kv
      rw [renderObjTail_cons, List.cons_append]
      exact noDigit_head ',' (by decide) _

/-! ## C5: the parser inverts the renderer -/

lemma parse_render_master : ∀ fuel : Nat,
    (∀ j rest, needJ j ≤ fuel → (∀ c, rest.head? = some c → c.isDigit = false) →
      parseVal fuel (renderVal j ++ rest) = some (j, rest)) ∧
    (∀ l rest, needA l ≤ fuel →
      parseArrBody fuel (renderArrItems l ++ ']' :: rest) = some (.arr l, rest)) ∧
    (∀ l rest, needA l ≤ fuel →
      parseArrTail fuel (renderArrTail l ++ ']' :: rest) = some (l, rest)) ∧
    (∀ m rest, needO m ≤ fuel →
      parseObjBody fuel (renderObjItems m ++ '\x7d' :: rest) = some (.obj m, rest)) ∧
    (∀ m rest, needO m ≤ fuel →
      parseObjTail fuel (renderObjTail m ++ '\x7d' :: rest) = some (m, rest)) := by
  intro fuel
  induction fuel with
  | zero =>
      refine ⟨?_, ?_, ?_, ?_, ?_⟩
      · intro j rest hle _
        exact absurd hle (by have := needJ_pos j; omega)
      · intro l rest hle
        exact absurd hle (by have := needA_pos l; omega)
      · intro l rest hle
        exact absurd hle (by have := needA_pos l; omega)
      · intro m rest hle
        exact absurd hle (by have := needO_pos m; omega)
      · intro m rest hle
        exact absurd hle (by have := needO_pos m; omega)
  | succ f ih =>
      obtain ⟨ihA, ihB, ihC, ihD, ihE⟩ := ih
      refine ⟨?_, ?_, ?_, ?_, ?_⟩
      · intro j rest hle hnd
        cases j with
        | str s =>
            rw [renderVal_str]
            show parseVal (f + 1) ('"' :: ((escapeString s ++ ['"']) ++ rest)) =
              some (.str s, rest)
            rw [parseVal_quote, List.append_assoc]
            show (parseStrChars ((s.toList.map escapeChar).flatten ++ '"' :: rest)).map
              (fun p => (Json.str (String.mk p.1), p.2)) = some (.str s, rest)
            rw [parseStrChars_escape]
            rfl
        | num n =>
            rw [renderVal_num]
            obtain ⟨c, cs, hnd2, hdig⟩ := natToDigits_head_digit n
            rw [hnd2, List.cons_append]
            have h1 : c ≠ '"' := by
              intro he
              rw [he] at hdig
              exact absurd hdig (by decide)
            have h2 : c ≠ '[' := by
              intro he
              rw [he] at hdig
              exact absurd hdig (by decide)
            have h3 : c ≠ '\x7b' := by
              intro he
              rw [he] at hdig
              exact absurd hdig (by decide)
            rw [parseVal_digit f c (cs ++ rest) h1 h2 h3 hdig]
            have ht : takeDigits (c :: (cs ++ rest)) = (natToDigits n, rest) := by
              have hsh : c :: (cs ++ rest) = natToDigits n ++ rest := by
                rw [hnd2]
                rfl
              rw [hsh]
              exact takeDigits_append _ _ (natToDigits_all_digits n) hnd
            rw [ht]
            show some (Json.num (digitsToNat (natToDigits n)), rest) = _
            rw [digitsToNat_natToDigits]
        | arr l =>
            rw [renderVal_arr, List.cons_append, parseVal_lbracket, List.append_assoc]
            show parseArrBody f (renderArrItems l ++ ']' :: rest) = some (.arr l, rest)
            rw [needJ_arr] at hle
            exact ihB l rest (by omega)
        | obj m =>
            rw [renderVal_obj, List.cons_append, parseVal_lbrace, List.append_assoc]
            show parseObjBody f (renderObjItems m ++ '\x7d' :: rest) = some (.obj m, rest)
            rw [needJ_obj] at hle
            exact ihD m rest (by omega)
      · intro l rest hle
        cases l with
        | nil =>
            rw [renderArrItems_nil, List.nil_append]
            exact parseArrBody_close f rest
        | cons x xs =>
            have hm1 := le_max_left (needJ x) (needA xs)
            have hm2 := le_max_right (needJ x) (needA xs)
            rw [needA_cons] at hle
            rw [renderArrItems_cons, List.append_assoc]
            obtain ⟨c, cs, hcx, hcls⟩ := renderVal_head x
            rw [hcx, List.cons_append]
            have hne : c ≠ ']' := by
              rcases hcls with h | h | h | h
              · rw [h]; decide
              · rw [h]; decide
              · rw [h]; decide
              · intro he
                rw [he] at h
                exact absurd h (by decide)
            rw [parseArrBody_cons f c _ hne, ← List.cons_append, ← hcx]
            rw [ihA x (renderArrTail xs ++ ']' :: rest) (by omega) (noDigit_arrTail xs rest)]
            simp only [optBind_some]
            rw [ihC xs rest (by omega)]
            simp only [optBind_some]
            rfl
      · intro l rest hle
        cases l with
        | nil =>
            rw [renderArrTail_nil, List.nil_append]
            exact parseArrTail_close f rest
        | cons y ys =>
            have hm1 := le_max_left (needJ y) (needA ys)
            have hm2 := le_max_right (needJ y) (needA ys)
            rw [needA_cons] at hle
            rw [renderArrTail_cons, List.cons_append, parseArrTail_comma, List.append_assoc]
            rw [ihA y (renderArrTail ys ++ ']' :: rest) (by omega) (noDigit_arrTail ys rest)]
            simp only [optBind_some]
            rw [ihC ys rest (by omega)]
            simp only [optBind_some]
            rfl
      · intro m rest hle
        cases m with
        | nil =>
            rw [renderObjItems_nil, List.nil_append]
            exact parseObjBody_close f rest
        | cons kv xs =>
            obtain ⟨k, v⟩ := kv
            have hm1 := le_max_left (needJ v) (needO xs)
            have hm2 := le_max_right (needJ v) (needO xs)
            rw [needO_cons] at hle
            rw [renderObjItems_cons, List.append_assoc]
            show parseObjBody (f + 1)
              ('"' :: ((escapeString k ++ ['"']) ++
                ((':' :: (renderVal v ++ renderObjTail xs)) ++ '\x7d' :: rest))) =
              some (.obj ((k, v) :: xs), rest)
            rw [parseObjBody_member, List.append_assoc]
            show (do
              let (k2, r1) ← parseStrChars ((k.toList.map escapeChar).flatten ++
                '"' :: ':' :: ((renderVal v ++ renderObjTail xs) ++ '\x7d' :: rest))
              match r1 with
              | ':' :: r2 => do
                let (v2, r3) ← parseVal f r2
                let (ms, r4) ← parseObjTail f r3
                pure (Json.obj ((String.mk k2, v2) :: ms), r4)
              | _ => none) = some (.obj ((k, v) :: xs), rest)
            rw [parseStrChars_escape]
            simp only [optBind_some]
            rw [List.append_assoc]
            rw [ihA v (renderObjTail xs ++ '\x7d' :: rest) (by omega) (noDigit_objTail xs rest)]
            simp only [optBind_some]
            rw [ihE xs rest (by omega)]
            simp only [optBind_some]
            rfl
      · intro m rest hle
        cases m with
        | nil =>
            rw [renderObjTail_nil, List.nil_append]
            exact parseObjTail_close f rest
        | cons kv xs =>
            obtain ⟨k, v⟩ := kv
            have hm1 := le_max_left (needJ v) (needO xs)
            have hm2 := le_max_right (needJ v) (needO xs)
            rw [needO_cons] at hle
            rw [renderObjTail_cons, List.cons_append, List.append_assoc]
            show parseObjTail (f + 1)
              (',' :: '"' :: ((escapeString k ++ ['"']) ++
                ((':' :: (renderVal v ++ renderObjTail xs)) ++ '\x7d' :: rest))) =
              some ((k, v) :: xs, rest)
            rw [parseObjTail_comma, List.append_assoc]
            show (do
              let (k2, r1) ← parseStrChars ((k.toList.map escapeChar).flatten ++
                '"' :: ':' :: ((renderVal v ++ renderObjTail xs) ++ '\x7d' :: rest))
              match r1 with
              | ':' :: r2 => do
                let (v2, r3) ← parseVal f r2
                let (ms, r4) ← parseObjTail f r3
                pure ((String.mk k2, v2) :: ms, r4)
              | _ => none) = some ((k, v) :: xs, rest)
            rw [parseStrChars_escape]
            simp only [optBind_some]
            rw [List.append_assoc]
            rw [ihA v (renderObjTail xs ++ '\x7d' :: rest) (by omega) (noDigit_objTail xs rest)]
            simp only [optBind_some]
            rw [ihE xs rest (by omega)]
            simp only [optBind_some]
            rfl

/-! ## C5: fuel bound and full-document parsing -/

mutual

theorem needJ_le_len (j : Json) : needJ j ≤ (renderVal j).length + 1 := by
  cases j with
  | str s =>
      rw [needJ_str]
      omega
  | num n =>
      rw [needJ_num]
      omega
  | arr l =>
      have h := needA_le_lenB l
      rw [needJ_arr, renderVal_arr]
      simp only [List.length_cons, List.length_append]
      omega
  | obj m =>
      have h := needO_le_lenB m
      rw [needJ_obj, renderVal_obj]
      simp only [List.length_cons, List.length_append]
      omega

theorem needA_le_lenB (l : List Json) : needA l ≤ (renderArrItems l).length + 2 := by
  cases l with
  | nil =>
      rw [needA_nil]
      omega
  | cons x xs =>
      have h1 := needJ_le_len x
      have h2 := needA_le_lenT xs
      have h3 : 0 < (renderVal x).length := by
        obtain ⟨c, cs, hc, -⟩ := renderVal_head x
        rw [hc]
        simp
      have hmax : max (needJ x) (needA xs) ≤
          (renderVal x).length + (renderArrTail xs).length + 1 :=
        max_le (by omega) (by omega)
      rw [needA_cons, renderArrItems_cons]
      simp only [List.length_append]
      omega

theorem needA_le_lenT (l : List Json) : needA l ≤ (renderArrTail l).length + 2 := by
  cases l with
  | nil =>
      rw [needA_nil]
      omega
  | cons y ys =>
      have h1 := needJ_le_len y
      have h2 := needA_le_lenT ys
      have hmax : max (needJ y) (needA ys) ≤
          (renderVal y).length + (renderArrTail ys).length + 2 :=
        max_le (by omega) (by omega)
      rw [needA_cons, renderArrTail_cons]
      simp only [List.length_cons, List.length_append]
      omega

theorem needO_le_lenB (m : List (String × Json)) :
    needO m ≤ (renderObjItems m).length + 2 := by
  cases m with
  | nil =>
      rw [needO_nil]
      omega
  | cons kv xs =>
      obtain ⟨k, v⟩ := kv
      have h1 := needJ_le_len v
      have h2 := needO_le_lenT xs
      have hmax : max (needJ v) (needO xs) ≤
          (renderVal v).length + (renderObjTail xs).length + 2 :=
        max_le (by omega) (by omega)
      rw [needO_cons, renderObjItems_cons]
      simp only [List.length_append, List.length_cons]
      omega

theorem needO_le_lenT (m : List (String × Json)) :
    needO m ≤ (renderObjTail m).length + 2 := by
  cases m with
  | nil =>
      rw [needO_nil]
      omega
  | cons kv xs =>
      obtain ⟨k, v⟩ := kv
      have h1 := needJ_le_len v
      have h2 := needO_le_lenT xs
      have hmax : max (needJ v) (needO xs) ≤
          (renderVal v).length + (renderObjTail xs).length + 2 :=
        max_le (by omega) (by omega)
      rw [needO_cons, renderObjTail_cons]
      simp only [List.length_append, List.length_cons]
      omega

end

/-- Parsing a rendered JSON document yields back exactly the value. -/
theorem parseJson_render (j : Json) : parseJson (String.mk (renderVal j)) = some j := by
  have hmain := (parse_render_master ((renderVal j).length + 1)).1 j []
    (by have := needJ_le_len j; omega)
    (by intro c hc; cases hc)
  rw [List.append_nil] at hmain
  show (match parseVal ((renderVal j).length + 1) (renderVal j) with
    | some (v, []) => some v
    | _ => none) = some j
  rw [hmain]

/-! ## C5: decoding is a left inverse of the JSON view -/

lemma asStrList_map (l : List String) : asStrList (l.map Json.str) = some l := by
  induction l with
  | nil => rfl
  | cons s rest ih =>
      show (asStrList (rest.map Json.str)).map (fun l => s :: l) = some (s :: rest)
      rw [ih]
      rfl

lemma decodePublisher_toJson (p : PublisherObj) :
    decodePublisher (publisherToJson p) = some p := by
  obtain ⟨t, n, u⟩ := p
  cases u <;> rfl

lemma decodeAuthor_toJson (a : AuthorObj) : decodeAuthor (authorToJson a) = some a := by
  obtain ⟨n, u⟩ := a
  cases u <;> rfl

lemma bind_asStrList {β : Type} (l : List String) (k : Option (List String) → Option β) :
    (((asStrList (l.map Json.str)).map some) >>= k) = k (some l) := by
  rw [asStrList_map]
  rfl

lemma decodePerson_toJson (p : PersonSchema) :
    decodePerson (personToJson p) = some p := by
  obtain ⟨n, u, jt, d, i, sa⟩ := p
  cases sa with
  | none => cases jt <;> cases d <;> cases i <;> rfl
  | some l =>
      cases jt <;> cases d <;> cases i <;> exact bind_asStrList l _

lemma decodeWebsite_toJson (w : WebsiteSchema) :
    decodeWebsite (websiteToJson w) = some w := by
  obtain ⟨n, u, d, pub⟩ := w
  cases d <;> rcases pub with - | ⟨t, pn, pu⟩ <;> try rfl
  all_goals cases pu <;> rfl

lemma decodeMainEntity_toJson (m : MainEntityObj) :
    decodeMainEntity (mainEntityToJson m) = some m := rfl

lemma decodeBlogPosting_toJson (b : BlogPostingSchema) :
    decodeBlogPosting (blogPostingToJson b) = some b := by
  obtain ⟨h, d, a, dp, dm, u, i, pub, meop⟩ := b
  obtain ⟨an, au⟩ := a
  cases au <;> cases dm <;> cases i <;> rcases pub with - | ⟨t, pn, pu⟩ <;>
    rcases meop with - | ⟨mid⟩ <;> try rfl
  all_goals cases pu <;> rfl

lemma decodeBreadcrumbElem_toJson (e : BreadcrumbElem) :
    decodeBreadcrumbElem (breadcrumbElemToJson e) = some e := by
  obtain ⟨pos, nm, it⟩ := e
  cases it <;> rfl

lemma decodeElems_map (items : List BreadcrumbElem) :
    decodeElems (items.map breadcrumbElemToJson) = some items := by
  induction items with
  | nil => rfl
  | cons e rest ih =>
      show (do
        let e2 ← decodeBreadcrumbElem (breadcrumbElemToJson e)
        let es ← decodeElems (rest.map breadcrumbElemToJson)
        pure (e2 :: es)) = some (e :: rest)
      rw [decodeBreadcrumbElem_toJson e, ih]
      rfl

lemma decodeBreadcrumb_toJson (l : BreadcrumbListSchema) :
    decodeBreadcrumb (breadcrumbToJson l) = some l := by
  obtain ⟨items⟩ := l
  show ((decodeElems (items.map breadcrumbElemToJson)) >>=
    fun elems => some (BreadcrumbListSchema.mk elems)) = some (BreadcrumbListSchema.mk items)
  rw [decodeElems_map]
  rfl

lemma decodeSchemaObj_toJson (s : SchemaObj) :
    decodeSchemaObj (schemaObjToJson s) = some s := by
  cases s with
  | person p =>
      show (decodePerson (personToJson p)).map SchemaObj.person = some (.person p)
      rw [decodePerson_toJson]
      rfl
  | website w =>
      show (decodeWebsite (websiteToJson w)).map SchemaObj.website = some (.website w)
      rw [decodeWebsite_toJson]
      rfl
  | blogPosting b =>
      show (decodeBlogPosting (blogPostingToJson b)).map SchemaObj.blogPosting =
        some (.blogPosting b)
      rw [decodeBlogPosting_toJson]
      rfl
  | breadcrumbList l =>
      show (decodeBreadcrumb (breadcrumbToJson l)).map SchemaObj.breadcrumbList =
        some (.breadcrumbList l)
      rw [decodeBreadcrumb_toJson]
      rfl

lemma decodeObjs_map (l : List SchemaObj) :
    decodeObjs (l.map schemaObjToJson) = some l := by
  induction l with
  | nil => rfl
  | cons s rest ih =>
      show (do
        let s2 ← decodeSchemaObj (schemaObjToJson s)
        let ss ← decodeObjs (rest.map schemaObjToJson)
        pure (s2 :: ss)) = some (s :: rest)
      rw [decodeSchemaObj_toJson s, ih]
      rfl

lemma decodeJsonld_toJson (s : JSONLDSchema) :
    decodeJsonld (jsonldToJson s) = some s := by
  cases s with
  | array l =>
      show (decodeObjs (l.map schemaObjToJson)).map JSONLDSchema.array =
        some (.array l)
      rw [decodeObjs_map]
      rfl
  | single so =>
      cases so with
      | person p =>
          show (decodeSchemaObj (schemaObjToJson (.person p))).map JSONLDSchema.single =
            some (.single (.person p))
          rw [decodeSchemaObj_toJson]
          rfl
      | website w =>
          show (decodeSchemaObj (schemaObjToJson (.website w))).map JSONLDSchema.single =
            some (.single (.website w))
          rw [decodeSchemaObj_toJson]
          rfl
      | blogPosting b =>
          show (decodeSchemaObj (schemaObjToJson (.blogPosting b))).map
            JSONLDSchema.single = some (.single (.blogPosting b))
          rw [decodeSchemaObj_toJson]
          rfl
      | breadcrumbList l =>
          show (decodeSchemaObj (schemaObjToJson (.breadcrumbList l))).map
            JSONLDSchema.single = some (.single (.breadcrumbList l))
          rw [decodeSchemaObj_toJson]
          rfl

/-! ## C5 -/

/-- C5: `schemaToJson` (i.e. `JSON.stringify`) is a pure, lossless,
round-trippable encoding of schema values: for every schema value (any of
the four variants or an array of them), parsing the serialized string
reproduces exactly the JSON value of the original object (deep equality);
decoding that JSON value recovers the original schema value; and the
serialization is injective, so no information is lost. -/
theorem c5_serialization_roundtrip :
    (∀ s : JSONLDSchema, parseJson (schemaToJson s) = some (jsonldToJson s)) ∧
    (∀ s : JSONLDSchema, decodeJsonld (jsonldToJson s) = some s) ∧
    (∀ s₁ s₂ : JSONLDSchema, schemaToJson s₁ = schemaToJson s₂ → s₁ = s₂) := by
  refine ⟨?_, ?_, ?_⟩
  · intro s
    exact parseJson_render (jsonldToJson s)
  · intro s
    exact decodeJsonld_toJson s
  · intro s₁ s₂ h
    have h1 := parseJson_render (jsonldToJson s₁)
    have h2 := parseJson_render (jsonldToJson s₂)
    have hpp : parseJson (schemaToJson s₁) = parseJson (schemaToJson s₂) := by rw [h]
    have hj : jsonldToJson s₁ = jsonldToJson s₂ := by
      rw [show schemaToJson s₁ = String.mk (renderVal (jsonldToJson s₁)) from rfl,
        show schemaToJson s₂ = String.mk (renderVal (jsonldToJson s₂)) from rfl,
        h1, h2] at hpp
      exact Option.some.inj hpp
    have d1 := decodeJsonld_toJson s₁
    rw [hj, decodeJsonld_toJson s₂] at d1
    exact (Option.some.inj d1).symm

/-- C5 (witness): the round trip evaluated on a concrete Person schema. -/
theorem c5_serialization_roundtrip_witness :
    parseJson (schemaToJson (.single (.person (createPersonSchema
      { name := "Tufan", url := "https://tufancalisir.de", jobTitle := some "Frontend",
        description := none, image := none,
        sameAs := some ["https://github.com/tufancal"] })))) =
      some (jsonldToJson (.single (.person (createPersonSchema
        { name := "Tufan", url := "https://tufancalisir.de", jobTitle := some "Frontend",
          description := none, image := none,
          sameAs := some ["https://github.com/tufancal"] })))) ∧
    decodeJsonld (jsonldToJson (.single (.person (createPersonSchema
      { name := "Tufan", url := "https://tufancalisir.de", jobTitle := some "Frontend",
        description := none, image := none,
        sameAs := some ["https://github.com/tufancal"] })))) =
      some (.single (.person (createPersonSchema
        { name := "Tufan", url := "https://tufancalisir.de", jobTitle := some "Frontend",
          description := none, image := none,
          sameAs := some ["https://github.com/tufancal"] }))) ∧
    (.single (.person (createPersonSchema
      { name := "Tufan", url := "https://tufancalisir.de", jobTitle := some "Frontend",
        description := none, image := none,
        sameAs := some ["https://github.com/tufancal"] })) : JSONLDSchema) =
      .single (.person (createPersonSchema
        { name := "Tufan", url := "https://tufancalisir.de", jobTitle := some "Frontend",
          description := none, image := none,
          sameAs := some ["https://github.com/tufancal"] })) := by
  exact ⟨c5_serialization_roundtrip.1 _, c5_serialization_roundtrip.2.1 _,
    c5_serialization_roundtrip.2.2 _ _ rfl⟩

end Tufan
